import Mathlib

set_option linter.unusedVariables false

/-!
# Verification of the Veritrans proxy handlers

Shallow embedding of `src/handler.ts`: a GraphQL tokenization proxy
(`fetchVeritransToken`, resolver `getMdkToken`) and an MPI-authorize Lambda
handler (`generateAuthHash`, `generateOrderId`, `handler`).

JavaScript values flowing through the handlers are JSON values (the request
body is `JSON.parse` output, vendor responses are `response.json()` output),
so the data model is a JSON value type together with the pieces of JavaScript
semantics the code uses: truthiness, `String(...)` coercion, property access
(which throws on `null`), optional chaining, and `JSON.stringify`.
-/

/-! ### JSON values

Mutual inductive so that structural recursion and induction over array
elements and object fields stay first-class.  Object fields keep insertion
order, exactly as JavaScript object literals and `JSON.stringify` do.
JSON numbers are restricted to integers; every numeric literal the handlers
produce or compare is an integer, and client amounts are integral. -/

mutual
inductive Json where
  | null : Json
  | bool (flag : Bool) : Json
  | num (whole : Int) : Json
  | str (text : String) : Json
  | arr (items : JsonArr) : Json
  | obj (entries : JsonFields) : Json

inductive JsonArr where
  | anil : JsonArr
  | acons (first : Json) (more : JsonArr) : JsonArr

inductive JsonFields where
  | fnil : JsonFields
  | fcons (name : String) (value : Json) (more : JsonFields) : JsonFields
end

instance : Inhabited Json := ⟨Json.null⟩
instance : Inhabited JsonArr := ⟨JsonArr.anil⟩
instance : Inhabited JsonFields := ⟨JsonFields.fnil⟩

/-- Build ordered object fields from a list. -/
def fieldsOfList : List (String × Json) → JsonFields
  | [] => .fnil
  | (k, v) :: rest => .fcons k v (fieldsOfList rest)

/-- Object built from an ordered field list. -/
def jObj (l : List (String × Json)) : Json := Json.obj (fieldsOfList l)

/-- First binding of a key in an ordered field list. -/
def lookupF : List (String × Json) → String → Option Json
  | [], _ => none
  | (k, v) :: rest, n => if k = n then some v else lookupF rest n

/-- JavaScript truthiness of a JSON value: `null`, `false`, `0` and `""` are
falsy; every array and object is truthy. -/
def jsTruthy : Json → Bool
  | .null => false
  | .bool b => b
  | .num n => n != 0
  | .str s => s != ""
  | .arr _ => true
  | .obj _ => true

/-- Truthiness of a possibly-absent value (`none` models `undefined`). -/
def jsTruthyO : Option Json → Bool
  | some v => jsTruthy v
  | none => false

/-- The JavaScript `a || b` idiom on a possibly-absent value. -/
def jsOrJ (o : Option Json) (d : Json) : Json :=
  match o with
  | some v => if jsTruthy v then v else d
  | none => d

/-! ### Decimal digits

Own digit printer (rather than `Nat.repr`) so that injectivity and
digit-membership lemmas are provable by plain induction.  Fuel-structural
recursion keeps kernel reduction available for concrete inputs. -/

def digitChar10 : Nat → Char
  | 0 => '0' | 1 => '1' | 2 => '2' | 3 => '3' | 4 => '4'
  | 5 => '5' | 6 => '6' | 7 => '7' | 8 => '8' | 9 => '9'
  | _ => '?'

def digitVal : Char → Nat
  | '0' => 0 | '1' => 1 | '2' => 2 | '3' => 3 | '4' => 4
  | '5' => 5 | '6' => 6 | '7' => 7 | '8' => 8 | '9' => 9
  | _ => 0

/-- Is this character a decimal digit? -/
def isDigitCh (c : Char) : Bool :=
  48 ≤ c.toNat && c.toNat ≤ 57

def natCharsAux : Nat → Nat → List Char
  | 0, _ => []
  | fuel + 1, n =>
    if n < 10 then [digitChar10 n]
    else natCharsAux fuel (n / 10) ++ [digitChar10 (n % 10)]

/-- Decimal digits of a natural number, most significant first. -/
def natChars (n : Nat) : List Char := natCharsAux (n + 1) n

/-- Decimal rendering of an integer, as both JavaScript `String(n)` and
`JSON.stringify(n)` produce it for integral numbers. -/
def intChars (n : Int) : List Char :=
  if n < 0 then '-' :: natChars n.natAbs else natChars n.natAbs

def intStr (n : Int) : String := String.mk (intChars n)

/-! ### `String(...)` coercion

`String(x)` as the authorize handler applies it to `body.amount`: numbers
print in decimal, arrays join their elements with `","` (with `null`
rendering as the empty string), objects print as `[object Object]`. -/

mutual
def jsToString : Json → String
  | .null => "null"
  | .bool true => "true"
  | .bool false => "false"
  | .num n => intStr n
  | .str s => s
  | .arr xs => jsToStringArr xs
  | .obj _ => "[object Object]"

def jsToStringArr : JsonArr → String
  | .anil => ""
  | .acons v tl =>
    (match v with
     | .null => ""
     | w => jsToString w) ++
    (match tl with
     | .anil => ""
     | t => "," ++ jsToStringArr t)
end

/-! ### `JSON.stringify`

Exactly the JavaScript serialization: no whitespace, object fields in
insertion order, strings escaped with `\"`, `\\`, the five short control
escapes and `\u00XX` for the remaining control characters.  Braces in
character literals are written with hex escapes. -/

def hexDigit : Nat → Char
  | 10 => 'a' | 11 => 'b' | 12 => 'c' | 13 => 'd' | 14 => 'e' | 15 => 'f'
  | d => digitChar10 d

/-- `JSON.stringify` escape of one character. -/
def escChar (c : Char) : List Char :=
  if c = '"' then ['\\', '"']
  else if c = '\\' then ['\\', '\\']
  else if c = '\n' then ['\\', 'n']
  else if c = '\r' then ['\\', 'r']
  else if c = '\t' then ['\\', 't']
  else if c = '\x08' then ['\\', 'b']
  else if c = '\x0c' then ['\\', 'f']
  else if c.toNat < 32 then
    ['\\', 'u', '0', '0', hexDigit (c.toNat / 16), hexDigit (c.toNat % 16)]
  else [c]

def escL : List Char → List Char
  | [] => []
  | c :: rest => escChar c ++ escL rest

/-- A JSON string literal: quote, escaped contents, quote. -/
def strLitChars (s : String) : List Char := '"' :: (escL s.data ++ ['"'])

mutual
def jsonChars : Json → List Char
  | .null => 'n' :: ['u', 'l', 'l']
  | .bool true => 't' :: ['r', 'u', 'e']
  | .bool false => 'f' :: ['a', 'l', 's', 'e']
  | .num n => intChars n
  | .str s => strLitChars s
  | .arr xs => '[' :: (jsonCharsArr xs ++ [']'])
  | .obj fs => '\x7b' :: (jsonCharsFields fs ++ ['\x7d'])

def jsonCharsArr : JsonArr → List Char
  | .anil => []
  | .acons v .anil => jsonChars v
  | .acons v tl => jsonChars v ++ ',' :: jsonCharsArr tl

def jsonCharsFields : JsonFields → List Char
  | .fnil => []
  | .fcons k v .fnil => strLitChars k ++ ':' :: jsonChars v
  | .fcons k v tl => strLitChars k ++ ':' :: (jsonChars v ++ ',' :: jsonCharsFields tl)
end

/-- The serialization `JSON.stringify` used by the handlers, both for the
hash preimage and for outbound request bodies. -/
def jsonStringify (j : Json) : String := String.mk (jsonChars j)

/-! ### UTF-8

`createHash("sha256").update(joined, "utf8")` hashes the UTF-8 bytes of the
joined string; own encoder so everything stays kernel-reducible. -/

def utf8Char (c : Char) : List Nat :=
  let n := c.toNat
  if n < 128 then [n]
  else if n < 2048 then [192 ||| (n >>> 6), 128 ||| (n &&& 63)]
  else if n < 65536 then
    [224 ||| (n >>> 12), 128 ||| ((n >>> 6) &&& 63), 128 ||| (n &&& 63)]
  else
    [240 ||| (n >>> 18), 128 ||| ((n >>> 12) &&& 63),
     128 ||| ((n >>> 6) &&& 63), 128 ||| (n &&& 63)]

def utf8Bytes (s : String) : List Nat :=
  s.data.foldr (fun c acc => utf8Char c ++ acc) []

/-! ### SHA-256 (FIPS 180-4)

Words are naturals reduced modulo `2 ^ 32` explicitly. -/

def w32 (n : Nat) : Nat := n % 4294967296

def rotr32 (k x : Nat) : Nat := w32 ((x >>> k) ||| (x <<< (32 - k)))

def bsig0 (x : Nat) : Nat := (rotr32 2 x) ^^^ (rotr32 13 x) ^^^ (rotr32 22 x)
def bsig1 (x : Nat) : Nat := (rotr32 6 x) ^^^ (rotr32 11 x) ^^^ (rotr32 25 x)
def ssig0 (x : Nat) : Nat := (rotr32 7 x) ^^^ (rotr32 18 x) ^^^ (x >>> 3)
def ssig1 (x : Nat) : Nat := (rotr32 17 x) ^^^ (rotr32 19 x) ^^^ (x >>> 10)

def shaK : List Nat :=
  [1116352408, 1899447441, 3049323471, 3921009573,
   961987163, 1508970993, 2453635748, 2870763221,
   3624381080, 310598401, 607225278, 1426881987,
   1925078388, 2162078206, 2614888103, 3248222580,
   3835390401, 4022224774, 264347078, 604807628,
   770255983, 1249150122, 1555081692, 1996064986,
   2554220882, 2821834349, 2952996808, 3210313671,
   3336571891, 3584528711, 113926993, 338241895,
   666307205, 773529912, 1294757372, 1396182291,
   1695183700, 1986661051, 2177026350, 2456956037,
   2730485921, 2820302411, 3259730800, 3345764771,
   3516065817, 3600352804, 4094571909, 275423344,
   430227734, 506948616, 659060556, 883997877,
   958139571, 1322822218, 1537002063, 1747873779,
   1955562222, 2024104815, 2227730452, 2361852424,
   2428436474, 2756734187, 3204031479, 3329325298]

def shaH0 : List Nat :=
  [1779033703, 3144134277, 1013904242, 2773480762,
   1359893119, 2600822924, 528734635, 1541459225]

/-- Merkle–Damgård padding: `0x80`, zeros to 56 mod 64, 8-byte big-endian
bit length. -/
def shaPad (msg : List Nat) : List Nat :=
  let L := msg.length
  msg ++ 128 :: List.replicate ((119 - L % 64) % 64) 0 ++
    ([56, 48, 40, 32, 24, 16, 8, 0].map fun i => ((8 * L) >>> i) % 256)

/-- Big-endian 32-bit words from bytes. -/
def beWords : List Nat → List Nat
  | b0 :: b1 :: b2 :: b3 :: rest =>
    (((b0 * 256 + b1) * 256 + b2) * 256 + b3) :: beWords rest
  | _ => []

/-- One schedule word from the reversed schedule built so far. -/
def scheduleStep (rw : List Nat) : Nat :=
  let g (i : Nat) : Nat := rw.getD (i - 1) 0
  w32 (ssig1 (g 2) + g 7 + ssig0 (g 15) + g 16)

def buildW : Nat → List Nat → List Nat
  | 0, rw => rw
  | k + 1, rw => buildW k (scheduleStep rw :: rw)

def compressStep (st : List Nat) (kw : Nat × Nat) : List Nat :=
  match st with
  | [wa, wb, wc, wd, we, wf, wg, wh] =>
    let chEFG := (we &&& wf) ^^^ ((we ^^^ 4294967295) &&& wg)
    let majABC := (wa &&& wb) ^^^ (wa &&& wc) ^^^ (wb &&& wc)
    let t1 := w32 (wh + bsig1 we + chEFG + kw.1 + kw.2)
    let t2 := w32 (bsig0 wa + majABC)
    [w32 (t1 + t2), wa, wb, wc, w32 (wd + t1), we, wf, wg]
  | other => other

def compressBlock (h : List Nat) (block : List Nat) : List Nat :=
  let w := (buildW 48 (beWords block).reverse).reverse
  let st := (shaK.zip w).foldl compressStep h
  (h.zip st).map fun p => w32 (p.1 + p.2)

def chunk64 : List Nat → List (List Nat)
  | [] => []
  | b :: rest => ((b :: rest).take 64) :: chunk64 ((b :: rest).drop 64)
  termination_by l => l.length
  decreasing_by simp; omega

def sha256Words (msg : List Nat) : List Nat :=
  (chunk64 (shaPad msg)).foldl compressBlock shaH0

/-- The SHA-256 digest of a byte list, as a 256-bit natural number. -/
def sha256Nat (msg : List Nat) : Nat :=
  ((sha256Words msg).take 8).foldl (fun a w => a * 4294967296 + w32 w) 0

/-- Fixed-width big-endian lowercase hex. -/
def natHexChars : Nat → Nat → List Char
  | 0, _ => []
  | len + 1, n => natHexChars len (n / 16) ++ [hexDigit (n % 16)]

/-- Hex-encoded SHA-256 of the UTF-8 bytes of a string: the model of
`createHash("sha256").update(s, "utf8").digest("hex")`. -/
def sha256hex (s : String) : String :=
  String.mk (natHexChars 64 (sha256Nat (utf8Bytes s)))

theorem foldl_word_lt (l : List Nat) :
    ∀ (a k : Nat), a < 2 ^ k →
      l.foldl (fun a w => a * 4294967296 + w32 w) a < 2 ^ (k + 32 * l.length) := by
  induction l with
  | nil =>
    intro a k ha
    simp only [List.foldl_nil, List.length_nil, Nat.mul_zero, Nat.add_zero]
    exact ha
  | cons w l ih =>
    intro a k ha
    have hstep : a * 4294967296 + w32 w < 2 ^ (k + 32) := by
      have hw : w32 w < 4294967296 := Nat.mod_lt _ (by norm_num)
      have h1 : a * 4294967296 + w32 w < (a + 1) * 4294967296 := by omega
      have h2 : (a + 1) * 4294967296 ≤ 2 ^ k * 4294967296 :=
        Nat.mul_le_mul_right _ ha
      calc a * 4294967296 + w32 w < (a + 1) * 4294967296 := h1
        _ ≤ 2 ^ k * 4294967296 := h2
        _ = 2 ^ (k + 32) := by rw [pow_add]; norm_num
    rw [List.foldl_cons]
    have h2 := ih (a * 4294967296 + w32 w) (k + 32) hstep
    have hexp : k + 32 + 32 * l.length = k + 32 * (w :: l).length := by
      simp only [List.length_cons]
      omega
    rw [← hexp]
    exact h2

/-- The digest value is below `2 ^ 256`. -/
theorem sha256Nat_lt (msg : List Nat) : sha256Nat msg < 2 ^ 256 := by
  have hlen : ((sha256Words msg).take 8).length ≤ 8 :=
    List.length_take_le 8 (sha256Words msg)
  have h := foldl_word_lt ((sha256Words msg).take 8) 0 0 (by norm_num)
  have hle : 2 ^ (0 + 32 * ((sha256Words msg).take 8).length) ≤ 2 ^ 256 := by
    apply Nat.pow_le_pow_right (by norm_num)
    omega
  exact lt_of_lt_of_le h hle

/-! ### JavaScript property access -/

/-- Field lookup on object fields (first binding wins). -/
def lookupFields : JsonFields → String → Option Json
  | .fnil, _ => none
  | .fcons k v rest, n => if k = n then some v else lookupFields rest n

/-- Total property read `x.k` on a non-null value: objects look the key up;
primitives and arrays have none of the keys the handlers read, giving
`undefined` (`none`). -/
def jsFieldAny : Json → String → Option Json
  | .obj fs, k => lookupFields fs k
  | _, _ => none

/-- Property read `x.k` as an effect: a TypeError is thrown when `x` is
`null`. -/
def jsGet (j : Json) (k : String) : Except String (Option Json) :=
  match j with
  | .null => .error ("Cannot read properties of null (reading " ++ k ++ ")")
  | _ => .ok (jsFieldAny j k)

/-- The value of `result.result?.k` when `result` is not `null` (where the
read cannot throw): `undefined` unless `result.result` is an object carrying
the key. -/
def chainCore (result : Json) (k : String) : Option Json :=
  match jsFieldAny result "result" with
  | some (.obj fs) => lookupFields fs k
  | _ => none

/-- `String(x)` on a possibly-absent value (`String(undefined)`). -/
def jsToStringO : Option Json → String
  | some v => jsToString v
  | none => "undefined"

/-! ### Server configuration and responses -/

/-- The environment variables the two handlers read. -/
structure Env where
  merchantCcid : Option String
  merchantKey : Option String
  redirectUri : Option String
  dummyRequest : Option String
  tokenApiKey : Option String

/-- A `process.env` string through the `!x` test: `undefined` and the empty
string are falsy. -/
def envVal : Option String → Option String
  | some s => if s = "" then none else some s
  | none => none

/-- An API Gateway response: status code plus the object handed to
`JSON.stringify` for the body (the headers are the constant content type and
are not modelled). -/
structure LambdaResponse where
  statusCode : Nat
  body : Json

instance : Inhabited LambdaResponse := ⟨⟨0, Json.null⟩⟩

def missingParamResponse (name : String) : LambdaResponse :=
  ⟨400, jObj [("message", Json.str ("Missing required parameter: " ++ name))]⟩

def configErrorResponse : LambdaResponse :=
  ⟨500, jObj [("message",
    Json.str "Server configuration error: Missing merchant credentials")]⟩

def internalErrorResponse (e : String) : LambdaResponse :=
  ⟨500, jObj [("message", Json.str "Internal Server Error"),
              ("error", Json.str e)]⟩

/-! ### The authorize handler -/

/-- `generateAuthHash` (handler.ts lines 139-149): minify the params with
`JSON.stringify`, concatenate merchant id, minified params and merchant key
with no separators, hash. -/
def generateAuthHash (merchantCcid : String) (params : Json)
    (merchantKey : String) : String :=
  let minifyParams := jsonStringify params
  let joinedString := merchantCcid ++ minifyParams ++ merchantKey
  sha256hex joinedString

/-- `generateOrderId` (lines 154-158); `Date.now()` and the base-36 random
suffix enter as parameters. -/
def generateOrderId (now : Nat) (rand : String) : String :=
  "order_" ++ String.mk (natChars now) ++ "_" ++ rand

/-- A JSON object entry that is dropped when the value is `undefined`,
following `JSON.stringify` semantics. -/
def optEntry (name : String) (v : Option Json) : List (String × Json) :=
  match v with
  | some x => [(name, x)]
  | none => []

/-- One conditional spread of the shape used on lines 224-259: the key
appears exactly when the guard value (the field itself) is truthy. -/
def condField (name : String) (v : Option Json) : List (String × Json) :=
  match v with
  | some x => if jsTruthy x then [(name, x)] else []
  | none => []

/-- The twelve optional client fields, in source order (lines 224-259). -/
def optionalNames : List String :=
  ["cardholderName", "cardholderEmail",
   "billingAddressCity", "billingAddressCountry",
   "billingAddressLine1", "billingPostalCode",
   "shippingAddressCity", "shippingAddressCountry",
   "shippingAddressLine1", "shippingPostalCode",
   "customerIp", "pushUrl"]

def condAll (get : String → Option Json) : List String → List (String × Json)
  | [] => []
  | n :: rest => condField n (get n) ++ condAll get rest

/-- The assembled `params` object (lines 205-269), as the ordered field list
`JSON.stringify` will see: fixed defaults through `||`, conditional spreads
for the optional fields, `redirectionUri` falling back to the environment
default (and dropped, as an undefined property, when both are absent),
`dummyRequest` injected when the test-mode variable is exactly `"1"`. -/
def buildParams (merchantCcid : String) (env : Env) (body : Json)
    (orderIdJ : Json) : List (String × Json) :=
  [("serviceOptionType",
      jsOrJ (jsFieldAny body "serviceOptionType") (Json.str "mpi-complete")),
   ("orderId", orderIdJ),
   ("amount", Json.str (jsToStringO (jsFieldAny body "amount"))),
   ("jpo", jsOrJ (jsFieldAny body "jpo") (Json.str "10")),
   ("withCapture", jsOrJ (jsFieldAny body "withCapture") (Json.str "false")),
   ("payNowIdParam", jObj (optEntry "token" (jsFieldAny body "token")))]
  ++ optEntry "redirectionUri"
      (match jsFieldAny body "redirectionUri" with
       | some v => if jsTruthy v then some v else Option.map Json.str env.redirectUri
       | none => Option.map Json.str env.redirectUri)
  ++ [("verifyResultLink", jsOrJ (jsFieldAny body "verifyResultLink") (Json.str "1")),
      ("deviceChannel", jsOrJ (jsFieldAny body "deviceChannel") (Json.str "02"))]
  ++ condAll (fun n => jsFieldAny body n) optionalNames
  ++ [("txnVersion", Json.str "2.0.0")]
  ++ (if env.dummyRequest = some "1" then [("dummyRequest", Json.str "1")] else [])
  ++ [("merchantCcid", Json.str merchantCcid)]

/-- What the handler is about to POST: the params object, the hash and the
`orderId` value it will echo in error responses. -/
structure OutboundRequest where
  params : Json
  authHash : String
  orderIdJ : Json

instance : Inhabited OutboundRequest := ⟨⟨Json.null, "", Json.null⟩⟩

/-- The serialized POST body `JSON.stringify(requestBody)` of line 295. -/
def outboundBody (req : OutboundRequest) : String :=
  jsonStringify (jObj [("params", req.params), ("authHash", Json.str req.authHash)])

/-- Line 203, `body.orderId || generateOrderId()`: the client value when
truthy, else a generated one. -/
def orderIdOf (body : Json) (now : Nat) (rand : String) : Json :=
  match jsFieldAny body "orderId" with
  | some v => if jsTruthy v then v else Json.str (generateOrderId now rand)
  | none => Json.str (generateOrderId now rand)

/-- The authorize handler up to (not including) the outbound `fetch`
(lines 163-287): credential check, body parse, validation, parameter
assembly and hash.  `Sum.inl` is an early response (no outbound call ever
happens), `Sum.inr` the request that will be POSTed; `Except.error` is a
thrown exception on its way to the handler's catch. -/
def buildAuthorize (env : Env) (parsedBody : Except String Json) (now : Nat)
    (rand : String) : Except String (LambdaResponse ⊕ OutboundRequest) := do
  match envVal env.merchantCcid, envVal env.merchantKey with
  | some merchantCcid, some merchantKey =>
    let body ← parsedBody
    match body with
    | .null => throw "Cannot read properties of null (reading token)"
    | _ =>
      if !(jsTruthyO (jsFieldAny body "token")) then
        return .inl (missingParamResponse "token")
      else if !(jsTruthyO (jsFieldAny body "amount")) then
        return .inl (missingParamResponse "amount")
      else
        let orderIdJ := orderIdOf body now rand
        let params := jObj (buildParams merchantCcid env body orderIdJ)
        let authHash := generateAuthHash merchantCcid params merchantKey
        return .inr ⟨params, authHash, orderIdJ⟩
  | _, _ => return .inl configErrorResponse

/-- Outcome of the one outbound `fetch` plus `response.json()`: the promise
rejects (network failure), or a response arrives with an HTTP status and a
body that parses as JSON or fails to. -/
inductive FetchOutcome where
  | networkError (msg : String)
  | response (status : Nat) (jsonResult : Except String Json)

/-- `response.ok`: HTTP status in the 2xx range. -/
def respOk (status : Nat) : Bool := 200 ≤ status && status < 300

/-- Lines 300-348 for a non-null parsed vendor body (where no property read
can throw): relay the vendor status on transport failure, 400 on a 2xx body
whose `result.mstatus` is `"failure"` (echoing the request `orderId`),
success projection otherwise. -/
def vendorResponse (orderIdJ : Json) (status : Nat) (result : Json) :
    LambdaResponse :=
  let mstatusFailure :=
    match chainCore result "mstatus" with
    | some (.str s) => s = "failure"
    | _ => false
  if !respOk status || mstatusFailure then
    ⟨if respOk status then 400 else status,
     jObj ([("message",
             jsOrJ (chainCore result "merrMsg") (Json.str "Error from Veritrans MPI"))]
       ++ optEntry "mstatus" (chainCore result "mstatus")
       ++ optEntry "vResultCode" (chainCore result "vResultCode")
       ++ [("orderId", orderIdJ)])⟩
  else
    ⟨200,
     jObj (optEntry "orderId" (chainCore result "orderId")
       ++ optEntry "mstatus" (chainCore result "mstatus")
       ++ optEntry "vResultCode" (chainCore result "vResultCode")
       ++ optEntry "message" (chainCore result "merrMsg")
       ++ optEntry "authStartUrl" (chainCore result "authStartUrl")
       ++ optEntry "resResponseContents" (chainCore result "resResponseContents")
       ++ optEntry "res3dMessageVersion" (chainCore result "res3dMessageVersion")
       ++ optEntry "resCorporationId" (chainCore result "resCorporationId")
       ++ optEntry "resBrandId" (chainCore result "resBrandId")
       ++ optEntry "marchTxn" (chainCore result "marchTxn")
       ++ optEntry "custTxn" (chainCore result "custTxn"))⟩

/-- Vendor-response interpretation including the throwing cases: a body that
fails `response.json()` propagates its parse error; a body equal to JSON
`null` makes the first `result.result` read throw a TypeError (lines
300-307). -/
def interpretVendor (orderIdJ : Json) (status : Nat)
    (jsonResult : Except String Json) : Except String LambdaResponse := do
  let result ← jsonResult
  match result with
  | .null => throw "Cannot read properties of null (reading result)"
  | _ => return vendorResponse orderIdJ status result

/-- The whole try-block of the authorize handler. -/
def authorizeCore (env : Env) (parsedBody : Except String Json) (now : Nat)
    (rand : String) (f : FetchOutcome) : Except String LambdaResponse := do
  match ← buildAuthorize env parsedBody now rand with
  | .inl r => return r
  | .inr req =>
    match f with
    | .networkError msg => throw msg
    | .response status jsonResult => interpretVendor req.orderIdJ status jsonResult

/-- The exported authorize `handler` (lines 160-360): `parsedBody` models
`JSON.parse(event.body ?? "\x7b\x7d")`, `f` the single outbound call. Every
exception lands in the catch (lines 349-359) and becomes the one structured
500 response. -/
def authorizeHandler (env : Env) (parsedBody : Except String Json) (now : Nat)
    (rand : String) (f : FetchOutcome) : LambdaResponse :=
  match authorizeCore env parsedBody now rand f with
  | .ok r => r
  | .error e => internalErrorResponse e

/-! ### The tokenization proxy and its GraphQL resolver -/

/-- `CardInput` of the GraphQL schema: required number and expiry, optional
security code and holder name. -/
structure CardInput where
  cardNumber : String
  cardExpire : String
  securityCode : Option String
  cardholderName : Option String

/-- The JSON payload POSTed to the tokenization endpoint (lines 55-62): the
raw card fields plus the server-held API key (`none` entries are undefined
properties, dropped by `JSON.stringify`). -/
def tokenPayload (card : CardInput) (env : Env) : List (String × Json) :=
  optEntry "card_number" (some (Json.str card.cardNumber))
  ++ optEntry "card_expire" (some (Json.str card.cardExpire))
  ++ optEntry "security_code" (card.securityCode.map Json.str)
  ++ optEntry "cardholder_name" (card.cardholderName.map Json.str)
  ++ optEntry "token_api_key" (env.tokenApiKey.map Json.str)
  ++ optEntry "lang" (some (Json.str "ja"))

/-- The message of `new Error(result.message || "Error from Veritrans")`
for a non-null body (the `Error` constructor coerces a truthy non-string
with `String(...)`). -/
def vendorTokenErr (result : Json) : String :=
  match jsFieldAny result "message" with
  | some v => if jsTruthy v then jsToString v else "Error from Veritrans"
  | none => "Error from Veritrans"

/-- `fetchVeritransToken` (lines 49-79), with the vendor reply as input:
parse the body, on a non-2xx status throw the vendor message (reading
`result.message` on a null body throws its own TypeError), otherwise return
the parsed body. -/
def fetchVeritransToken (card : CardInput) (env : Env)
    (outcome : FetchOutcome) : Except String Json := do
  match outcome with
  | .networkError msg => throw msg
  | .response status jsonResult =>
    let result ← jsonResult
    if respOk status then
      return result
    else
      match result with
      | .null => throw "Cannot read properties of null (reading message)"
      | _ => throw (vendorTokenErr result)

/-- The `getMdkToken` mutation result type: exactly the four projected
fields. -/
structure TokenProjection where
  token : Option Json
  status : Option Json
  code : Option Json
  message : Option Json

/-- Resolver `getMdkToken` (lines 87-112): call the vendor, project exactly
`token`, `status`, `code`, `message`; any error is logged and rethrown to
the GraphQL layer (reading `.token` on a null 2xx body throws first). -/
def getMdkToken (card : CardInput) (env : Env) (outcome : FetchOutcome) :
    Except String TokenProjection := do
  let result ← fetchVeritransToken card env outcome
  match result with
  | .null => throw "Cannot read properties of null (reading token)"
  | _ =>
    return ⟨jsFieldAny result "token", jsFieldAny result "status",
            jsFieldAny result "code", jsFieldAny result "message"⟩

/-! ### Lookup and staging lemmas -/

theorem lookupF_cons_eq (k : String) (v : Json) (rest : List (String × Json)) :
    lookupF ((k, v) :: rest) k = some v := by
  simp [lookupF]

theorem lookupF_cons_ne (k : String) (v : Json) (rest : List (String × Json))
    (n : String) (h : k ≠ n) : lookupF ((k, v) :: rest) n = lookupF rest n := by
  simp [lookupF, h]

theorem lookupF_optEntry_ne (name : String) (v : Option Json)
    (rest : List (String × Json)) (n : String) (h : name ≠ n) :
    lookupF (optEntry name v ++ rest) n = lookupF rest n := by
  cases v with
  | none => rfl
  | some x => simp [optEntry, lookupF, h]

theorem lookupF_condField_ne (name : String) (v : Option Json)
    (rest : List (String × Json)) (n : String) (h : name ≠ n) :
    lookupF (condField name v ++ rest) n = lookupF rest n := by
  cases v with
  | none => rfl
  | some x =>
    by_cases ht : jsTruthy x
    · simp [condField, ht, lookupF, h]
    · simp [condField, ht, lookupF]

theorem lookupF_condAll_ne (get : String → Option Json) (names : List String)
    (rest : List (String × Json)) (n : String) (h : ¬ n ∈ names) :
    lookupF (condAll get names ++ rest) n = lookupF rest n := by
  induction names with
  | nil => rfl
  | cons m ms ih =>
    have hm : m ≠ n := fun hc => h (hc ▸ List.mem_cons_self m ms)
    have hn : ¬ n ∈ ms := fun hc => h (List.mem_cons_of_mem _ hc)
    rw [condAll, List.append_assoc, lookupF_condField_ne m (get m) _ n hm, ih hn]

/-- Keep a possibly-absent value only when truthy: the visible effect of one
conditional spread. -/
def truthyFilter (o : Option Json) : Option Json :=
  match o with
  | some x => if jsTruthy x then some x else none
  | none => none

theorem lookupF_condAll_mem (get : String → Option Json) (names : List String)
    (rest : List (String × Json)) (n : String) (h : n ∈ names)
    (hres : lookupF rest n = none) (hnd : names.Nodup) :
    lookupF (condAll get names ++ rest) n = truthyFilter (get n) := by
  induction names with
  | nil => cases h
  | cons m ms ih =>
    rw [condAll, List.append_assoc]
    by_cases hm : m = n
    · subst hm
      have hms : ¬ m ∈ ms := (List.nodup_cons.mp hnd).1
      cases hg : get m with
      | none =>
        show lookupF (condField m none ++ (condAll get ms ++ rest)) m = _
        rw [show condField m none = ([] : List (String × Json)) from rfl]
        rw [List.nil_append, lookupF_condAll_ne get ms rest m hms, hres]
        simp [truthyFilter]
      | some x =>
        by_cases ht : jsTruthy x
        · simp [condField, hg, ht, lookupF, truthyFilter]
        · have hskip : lookupF (condAll get ms ++ rest) m = none := by
            rw [lookupF_condAll_ne get ms rest m hms, hres]
          simp [condField, ht, hskip, truthyFilter]
    · have hms : n ∈ ms := by
        cases h with
        | head => exact absurd rfl hm
        | tail _ hmem => exact hmem
      rw [lookupF_condField_ne m (get m) _ n hm,
        ih hms ((List.nodup_cons.mp hnd).2)]

/-- `buildAuthorize` on a parsed, non-null body with credentials present:
validation then assembly. -/
theorem buildAuthorize_ok_body (env : Env) (body : Json) (now : Nat)
    (rand : String) (ccid key : String)
    (hc : envVal env.merchantCcid = some ccid)
    (hk : envVal env.merchantKey = some key) (hnn : body ≠ Json.null) :
    buildAuthorize env (.ok body) now rand =
      (if !(jsTruthyO (jsFieldAny body "token")) then
        .ok (.inl (missingParamResponse "token"))
      else if !(jsTruthyO (jsFieldAny body "amount")) then
        .ok (.inl (missingParamResponse "amount"))
      else
        .ok (.inr ⟨jObj (buildParams ccid env body (orderIdOf body now rand)),
          generateAuthHash ccid
            (jObj (buildParams ccid env body (orderIdOf body now rand))) key,
          orderIdOf body now rand⟩)) := by
  unfold buildAuthorize
  rw [hc, hk]
  cases body <;> first | exact absurd rfl hnn | rfl

theorem buildAuthorize_token_falsy (env : Env) (body : Json) (now : Nat)
    (rand : String) (ccid key : String)
    (hc : envVal env.merchantCcid = some ccid)
    (hk : envVal env.merchantKey = some key) (hnn : body ≠ Json.null)
    (ht : jsTruthyO (jsFieldAny body "token") = false) :
    buildAuthorize env (.ok body) now rand =
      .ok (.inl (missingParamResponse "token")) := by
  rw [buildAuthorize_ok_body env body now rand ccid key hc hk hnn, ht]
  rfl

theorem buildAuthorize_amount_falsy (env : Env) (body : Json) (now : Nat)
    (rand : String) (ccid key : String)
    (hc : envVal env.merchantCcid = some ccid)
    (hk : envVal env.merchantKey = some key) (hnn : body ≠ Json.null)
    (ht : jsTruthyO (jsFieldAny body "token") = true)
    (ha : jsTruthyO (jsFieldAny body "amount") = false) :
    buildAuthorize env (.ok body) now rand =
      .ok (.inl (missingParamResponse "amount")) := by
  rw [buildAuthorize_ok_body env body now rand ccid key hc hk hnn, ht, ha]
  rfl

theorem buildAuthorize_valid (env : Env) (body : Json) (now : Nat)
    (rand : String) (ccid key : String)
    (hc : envVal env.merchantCcid = some ccid)
    (hk : envVal env.merchantKey = some key) (hnn : body ≠ Json.null)
    (ht : jsTruthyO (jsFieldAny body "token") = true)
    (ha : jsTruthyO (jsFieldAny body "amount") = true) :
    buildAuthorize env (.ok body) now rand =
      .ok (.inr ⟨jObj (buildParams ccid env body (orderIdOf body now rand)),
        generateAuthHash ccid
          (jObj (buildParams ccid env body (orderIdOf body now rand))) key,
        orderIdOf body now rand⟩) := by
  rw [buildAuthorize_ok_body env body now rand ccid key hc hk hnn, ht, ha]
  rfl

/-- An early `Sum.inl` result is the handler response for every fetch
outcome: no outbound call influences it. -/
theorem authorizeHandler_of_early (env : Env) (pr : Except String Json)
    (now : Nat) (rand : String) (r : LambdaResponse)
    (h : buildAuthorize env pr now rand = .ok (.inl r)) :
    ∀ f, authorizeHandler env pr now rand f = r := by
  intro f
  unfold authorizeHandler authorizeCore
  rw [h]
  rfl

theorem authorizeCore_of_request (env : Env) (pr : Except String Json)
    (now : Nat) (rand : String) (req : OutboundRequest)
    (h : buildAuthorize env pr now rand = .ok (.inr req)) (status : Nat)
    (jr : Except String Json) :
    authorizeCore env pr now rand (.response status jr) =
      interpretVendor req.orderIdJ status jr := by
  unfold authorizeCore
  rw [h]
  rfl

/-- `jsFieldAny` finds a binding only on objects. -/
theorem jsFieldAny_ne_null (body : Json) (k : String) (v : Json)
    (h : jsFieldAny body k = some v) : body ≠ Json.null := by
  intro hb
  subst hb
  exact Option.noConfusion h

theorem jsTruthyO_ne_null (body : Json) (k : String)
    (h : jsTruthyO (jsFieldAny body k) = true) : body ≠ Json.null := by
  intro hb
  subst hb
  simp [jsFieldAny, jsTruthyO] at h

/-! ### Concrete fixtures -/

def envFull : Env :=
  ⟨some "CCID1", some "KEY99", some "https://example.com/cb", none, none⟩

def envNoCcid : Env := ⟨none, some "KEY99", none, none, none⟩

/-! ### C3: missing merchant configuration -/

/-- C3: when the merchant ccid or key is absent from the server-side
configuration, every authorize invocation returns the 500 configuration
error (distinct from the 400 validation class), the handler never reaches
parameter assembly (`Sum.inl` of the pre-fetch stage), and the response is
the same for every fetch outcome - no outbound call is consulted. -/
theorem authorize_config_error_no_call (env : Env) (pr : Except String Json)
    (now : Nat) (rand : String)
    (h : envVal env.merchantCcid = none ∨ envVal env.merchantKey = none) :
    buildAuthorize env pr now rand = .ok (.inl configErrorResponse) ∧
    configErrorResponse.statusCode = 500 ∧
    configErrorResponse.statusCode ≠ 400 ∧
    (∀ f, authorizeHandler env pr now rand f = configErrorResponse) := by
  have hb : buildAuthorize env pr now rand = .ok (.inl configErrorResponse) := by
    unfold buildAuthorize
    rcases h with h | h
    · rw [h]
      cases hk : envVal env.merchantKey <;> rfl
    · cases hc : envVal env.merchantCcid <;> rw [h] <;> rfl
  exact ⟨hb, rfl, by decide, authorizeHandler_of_early env pr now rand _ hb⟩

theorem authorize_config_error_no_call_witness :
    buildAuthorize envNoCcid (.ok (jObj [])) 0 "" = .ok (.inl configErrorResponse) ∧
    authorizeHandler envNoCcid (.ok (jObj [])) 0 "" (.networkError "down") =
      configErrorResponse := by
  have h := authorize_config_error_no_call envNoCcid (.ok (jObj [])) 0 "" (Or.inl rfl)
  exact ⟨h.1, h.2.2.2 (.networkError "down")⟩

/-! ### C2: missing required parameters -/

/-- C2 (amended): with credentials configured, every request whose body
parses to JSON other than `null` and is missing `token` or missing
`amount` draws a 400 `Missing required parameter` response at the
pre-fetch stage - naming `token` whenever the token check fails (also
when a present-but-falsy token accompanies the missing amount), `amount`
otherwise - and the handler response is independent of any fetch outcome;
a body parsing to JSON `null` instead throws on the `token` read and is
answered by the 500 catch. -/
theorem authorize_missing_required_no_call (env : Env) (now : Nat)
    (rand : String) (ccid key : String)
    (hc : envVal env.merchantCcid = some ccid)
    (hk : envVal env.merchantKey = some key) :
    (∀ body, body ≠ Json.null →
      jsFieldAny body "token" = none ∨ jsFieldAny body "amount" = none →
      ((buildAuthorize env (.ok body) now rand =
          .ok (.inl (missingParamResponse "token")) ∧
        ∀ f, authorizeHandler env (.ok body) now rand f =
          missingParamResponse "token") ∨
       (buildAuthorize env (.ok body) now rand =
          .ok (.inl (missingParamResponse "amount")) ∧
        ∀ f, authorizeHandler env (.ok body) now rand f =
          missingParamResponse "amount"))) ∧
    (∀ f, authorizeHandler env (.ok Json.null) now rand f =
      internalErrorResponse "Cannot read properties of null (reading token)") ∧
    (missingParamResponse "token").statusCode = 400 ∧
    (missingParamResponse "amount").statusCode = 400 := by
  have hnull : buildAuthorize env (.ok Json.null) now rand =
      .error "Cannot read properties of null (reading token)" := by
    unfold buildAuthorize
    rw [hc, hk]
    rfl
  refine ⟨?_, ?_, rfl, rfl⟩
  · intro body hb h
    cases ht : jsTruthyO (jsFieldAny body "token") with
    | false =>
      have hbt := buildAuthorize_token_falsy env body now rand ccid key hc hk hb ht
      exact Or.inl ⟨hbt, authorizeHandler_of_early _ _ _ _ _ hbt⟩
    | true =>
      have ha : jsFieldAny body "amount" = none := by
        rcases h with h | h
        · rw [h] at ht
          exact absurd ht (by decide)
        · exact h
      have hba := buildAuthorize_amount_falsy env body now rand ccid key hc hk hb ht
        (by rw [ha]; rfl)
      exact Or.inr ⟨hba, authorizeHandler_of_early _ _ _ _ _ hba⟩
  · intro f
    unfold authorizeHandler authorizeCore
    rw [hnull]
    rfl

def c2body : Json := jObj [("amount", Json.num 1000)]

def c2gap : Json := jObj [("token", Json.str "")]

/-- C2 counterexample: the claim quantifies over every request whose body
is missing `token`, but the body `null` - a valid JSON document with no
token field - is answered by the 500 catch, not a 400: reading
`body.token` on `null` throws a TypeError before any validation response
is built. -/
theorem authorize_missing_required_counterexample :
    jsFieldAny Json.null "token" = none ∧
    authorizeHandler envFull (.ok Json.null) 0 "" (.networkError "down") =
      internalErrorResponse "Cannot read properties of null (reading token)" ∧
    (authorizeHandler envFull (.ok Json.null) 0 ""
      (.networkError "down")).statusCode = 500 ∧
    (authorizeHandler envFull (.ok Json.null) 0 ""
      (.networkError "down")).statusCode ≠ 400 := by
  refine ⟨rfl, rfl, rfl, ?_⟩
  intro hcontra
  rw [show (authorizeHandler envFull (.ok Json.null) 0 ""
    (.networkError "down")).statusCode = 500 from rfl] at hcontra
  exact absurd hcontra (by decide)

theorem authorize_missing_required_no_call_witness :
    buildAuthorize envFull (.ok c2body) 0 "" =
      .ok (.inl (missingParamResponse "token")) ∧
    buildAuthorize envFull (.ok c2gap) 0 "" =
      .ok (.inl (missingParamResponse "token")) ∧
    authorizeHandler envFull (.ok c2gap) 0 "" (.networkError "down") =
      missingParamResponse "token" ∧
    authorizeHandler envFull (.ok Json.null) 0 "" (.networkError "down") =
      internalErrorResponse "Cannot read properties of null (reading token)" ∧
    (missingParamResponse "token").statusCode = 400 ∧
    (missingParamResponse "amount").statusCode = 400 := by
  have h := authorize_missing_required_no_call envFull 0 "" "CCID1" "KEY99" rfl rfl
  have hd1 := h.1 c2body (fun hh => Json.noConfusion hh) (Or.inl rfl)
  have hd2 := h.1 c2gap (fun hh => Json.noConfusion hh) (Or.inr rfl)
  exact ⟨rfl, rfl,
    authorizeHandler_of_early envFull (.ok c2gap) 0 "" _ rfl (.networkError "down"),
    h.2.1 (.networkError "down"), h.2.2.1, h.2.2.2⟩

/-! ### C10: falsiness, not presence -/

/-- C10: the required-field checks are truthiness tests - an empty-string
`token`, a zero or empty-string `amount`, are rejected exactly like absent
fields; an empty-string client `orderId` is replaced by the generated one. -/
theorem authorize_falsiness (env : Env) (body : Json) (now : Nat)
    (rand : String) (ccid key : String)
    (hc : envVal env.merchantCcid = some ccid)
    (hk : envVal env.merchantKey = some key) :
    (jsFieldAny body "token" = some (Json.str "") →
      buildAuthorize env (.ok body) now rand =
        .ok (.inl (missingParamResponse "token")) ∧
      ∀ f, authorizeHandler env (.ok body) now rand f =
        missingParamResponse "token") ∧
    (jsTruthyO (jsFieldAny body "token") = true →
     (jsFieldAny body "amount" = some (Json.num 0) ∨
      jsFieldAny body "amount" = some (Json.str "")) →
      buildAuthorize env (.ok body) now rand =
        .ok (.inl (missingParamResponse "amount")) ∧
      ∀ f, authorizeHandler env (.ok body) now rand f =
        missingParamResponse "amount") ∧
    (jsTruthyO (jsFieldAny body "token") = true →
     jsTruthyO (jsFieldAny body "amount") = true →
     jsFieldAny body "orderId" = some (Json.str "") →
      orderIdOf body now rand = Json.str (generateOrderId now rand) ∧
      ∀ req, buildAuthorize env (.ok body) now rand = .ok (.inr req) →
        req.orderIdJ = Json.str (generateOrderId now rand)) := by
  refine ⟨?_, ?_, ?_⟩
  · intro h
    have hb := jsFieldAny_ne_null _ _ _ h
    have hbt := buildAuthorize_token_falsy env body now rand ccid key hc hk hb
      (by rw [h]; rfl)
    exact ⟨hbt, authorizeHandler_of_early _ _ _ _ _ hbt⟩
  · intro ht ha
    have hb := jsTruthyO_ne_null _ _ ht
    have ha2 : jsTruthyO (jsFieldAny body "amount") = false := by
      rcases ha with ha | ha <;> rw [ha] <;> decide
    have hba := buildAuthorize_amount_falsy env body now rand ccid key hc hk hb ht ha2
    exact ⟨hba, authorizeHandler_of_early _ _ _ _ _ hba⟩
  · intro ht ha ho
    have hb := jsTruthyO_ne_null _ _ ht
    have hoid : orderIdOf body now rand = Json.str (generateOrderId now rand) := by
      unfold orderIdOf
      rw [ho]
      simp [jsTruthy]
    refine ⟨hoid, fun req hreq => ?_⟩
    rw [buildAuthorize_valid env body now rand ccid key hc hk hb ht ha] at hreq
    injection hreq with h1
    injection h1 with h2
    rw [← h2, hoid]

def c10body1 : Json := jObj [("token", Json.str "")]
def c10body2 : Json := jObj [("token", Json.str "t"), ("amount", Json.num 0)]
def c10body3 : Json :=
  jObj [("token", Json.str "t"), ("amount", Json.num 1), ("orderId", Json.str "")]

def c10req : OutboundRequest :=
  match buildAuthorize envFull (.ok c10body3) 7 "rnd" with
  | .ok (.inr r) => r
  | _ => default

theorem authorize_falsiness_witness :
    buildAuthorize envFull (.ok c10body1) 7 "rnd" =
      .ok (.inl (missingParamResponse "token")) ∧
    buildAuthorize envFull (.ok c10body2) 7 "rnd" =
      .ok (.inl (missingParamResponse "amount")) ∧
    orderIdOf c10body3 7 "rnd" = Json.str (generateOrderId 7 "rnd") ∧
    buildAuthorize envFull (.ok c10body3) 7 "rnd" = .ok (.inr c10req) ∧
    c10req.orderIdJ = Json.str (generateOrderId 7 "rnd") := by
  have h1 := (authorize_falsiness envFull c10body1 7 "rnd" "CCID1" "KEY99" rfl rfl).1 rfl
  have h2 := (authorize_falsiness envFull c10body2 7 "rnd" "CCID1" "KEY99" rfl rfl).2.1
    rfl (Or.inl rfl)
  have h3 := (authorize_falsiness envFull c10body3 7 "rnd" "CCID1" "KEY99" rfl rfl).2.2
    rfl rfl rfl
  exact ⟨h1.1, h2.1, h3.1, rfl, h3.2 c10req rfl⟩

/-! ### C9: the catch-all -/

/-- C9: whenever the try-block raises (malformed request JSON, network
failure, malformed or null vendor body), the handler returns the one
structured 500 response carrying the generic message plus the caught
description; the handler itself is a total function, so every execution
path ends in exactly one structured response. -/
theorem authorize_catch_is_500 (env : Env) (pr : Except String Json) (now : Nat)
    (rand : String) (f : FetchOutcome) (e : String)
    (h : authorizeCore env pr now rand f = .error e) :
    authorizeHandler env pr now rand f = internalErrorResponse e ∧
    (internalErrorResponse e).statusCode = 500 ∧
    (internalErrorResponse e).body =
      jObj [("message", Json.str "Internal Server Error"),
            ("error", Json.str e)] := by
  refine ⟨?_, rfl, rfl⟩
  unfold authorizeHandler
  rw [h]

theorem authorize_catch_is_500_witness :
    authorizeCore envFull (.error "Unexpected end of JSON input") 0 ""
      (.networkError "t") = .error "Unexpected end of JSON input" ∧
    authorizeHandler envFull (.error "Unexpected end of JSON input") 0 ""
      (.networkError "t") = internalErrorResponse "Unexpected end of JSON input" := by
  refine ⟨rfl, (authorize_catch_is_500 envFull (.error "Unexpected end of JSON input")
    0 "" (.networkError "t") "Unexpected end of JSON input" rfl).1⟩

/-! ### C8: the tokenization proxy never echoes card data -/

theorem fetchVeritransToken_response (card : CardInput) (env : Env)
    (status : Nat) (result : Json) :
    fetchVeritransToken card env (.response status (.ok result)) =
      if respOk status then .ok result
      else match result with
        | .null => .error "Cannot read properties of null (reading message)"
        | _ => .error (vendorTokenErr result) := rfl

theorem getMdkToken_response (card : CardInput) (env : Env) (status : Nat)
    (result : Json) (hok : respOk status = true) :
    getMdkToken card env (.response status (.ok result)) =
      (match result with
       | .null => .error "Cannot read properties of null (reading token)"
       | _ => .ok ⟨jsFieldAny result "token", jsFieldAny result "status",
                   jsFieldAny result "code", jsFieldAny result "message"⟩) := by
  unfold getMdkToken
  rw [fetchVeritransToken_response, hok]
  cases result <;> rfl

theorem getMdkToken_response_err (card : CardInput) (env : Env) (status : Nat)
    (result : Json) (hok : respOk status = false) :
    getMdkToken card env (.response status (.ok result)) =
      (match result with
       | .null => .error "Cannot read properties of null (reading message)"
       | _ => .error (vendorTokenErr result)) := by
  unfold getMdkToken
  rw [fetchVeritransToken_response, hok]
  cases result <;> rfl

/-- C8: the resolver result is a pure projection of the vendor response -
`token`, `status`, `code`, `message` - so, holding the vendor outcome
fixed, changing any card input field (number, expiry, security code,
holder name) changes nothing in the returned value: card data is never
echoed. -/
theorem getMdkToken_no_card_leak :
    (∀ (c1 c2 : CardInput) (env : Env) (outcome : FetchOutcome),
      getMdkToken c1 env outcome = getMdkToken c2 env outcome) ∧
    (∀ (c : CardInput) (env : Env) (status : Nat) (result : Json)
      (proj : TokenProjection),
      getMdkToken c env (.response status (.ok result)) = .ok proj →
      proj = ⟨jsFieldAny result "token", jsFieldAny result "status",
              jsFieldAny result "code", jsFieldAny result "message"⟩) := by
  constructor
  · intro c1 c2 env outcome
    rfl
  · intro c env status result proj h
    cases hok : respOk status
    · rw [getMdkToken_response_err c env status result hok] at h
      cases result <;> exact Except.noConfusion h
    · rw [getMdkToken_response c env status result hok] at h
      cases result
      case null => exact Except.noConfusion h
      all_goals
        injection h with h1
        exact h1.symm

def cardA : CardInput := ⟨"4111111111111111", "12/30", some "123", some "TARO YAMADA"⟩
def cardB : CardInput := ⟨"5555555555554444", "01/29", none, none⟩

def c8result : Json :=
  jObj [("token", Json.str "tok_x"), ("status", Json.str "success"),
        ("code", Json.str "A001"), ("message", Json.str "ok")]

theorem getMdkToken_no_card_leak_witness :
    getMdkToken cardA envFull (.response 200 (.ok c8result)) =
      getMdkToken cardB envFull (.response 200 (.ok c8result)) ∧
    (⟨some (Json.str "tok_x"), some (Json.str "success"), some (Json.str "A001"),
      some (Json.str "ok")⟩ : TokenProjection) =
      ⟨jsFieldAny c8result "token", jsFieldAny c8result "status",
       jsFieldAny c8result "code", jsFieldAny c8result "message"⟩ :=
  ⟨getMdkToken_no_card_leak.1 cardA cardB envFull _,
   getMdkToken_no_card_leak.2 cardA envFull 200 c8result _ rfl⟩

/-! ### C4: vendor response interpretation -/

theorem interpretVendor_ok (oid : Json) (status : Nat) (result : Json)
    (hnn : result ≠ Json.null) :
    interpretVendor oid status (.ok result) =
      .ok (vendorResponse oid status result) := by
  cases result <;> first | exact absurd rfl hnn | rfl

theorem jsFieldAny_jObj (l : List (String × Json)) (n : String) :
    jsFieldAny (jObj l) n = lookupF l n := by
  induction l with
  | nil => rfl
  | cons p rest ih =>
    obtain ⟨k, v⟩ := p
    show (if k = n then some v else lookupFields (fieldsOfList rest) n) =
      if k = n then some v else lookupF rest n
    by_cases hk : k = n
    · simp [hk]
    · simp only [hk, if_false, if_neg hk]
      exact ih

theorem lookupF_errBody (msg : Json) (ms vr : Option Json) (oid : Json) :
    lookupF ([("message", msg)] ++ optEntry "mstatus" ms
      ++ optEntry "vResultCode" vr ++ [("orderId", oid)]) "message" = some msg ∧
    lookupF ([("message", msg)] ++ optEntry "mstatus" ms
      ++ optEntry "vResultCode" vr ++ [("orderId", oid)]) "orderId" = some oid := by
  cases ms <;> cases vr <;> exact ⟨rfl, rfl⟩

/-- C4 (amended): for a vendor reply whose body parses as JSON other than
`null`: a non-2xx HTTP status is relayed as the handler status; a 2xx reply
with `result.mstatus == "failure"` becomes HTTP 400 carrying the vendor
message (with its fallback) and the request `orderId` echoed; any other 2xx
reply is the 200 success projection.  (On a body that fails to parse or
parses to `null` the handler instead lands in the 500 catch.) -/
theorem authorize_vendor_interpretation (env : Env) (pr : Except String Json)
    (now : Nat) (rand : String) (req : OutboundRequest) (status : Nat)
    (result : Json)
    (hreq : buildAuthorize env pr now rand = .ok (.inr req))
    (hnn : result ≠ Json.null) :
    authorizeHandler env pr now rand (.response status (.ok result)) =
      vendorResponse req.orderIdJ status result ∧
    (respOk status = false →
      (vendorResponse req.orderIdJ status result).statusCode = status) ∧
    (respOk status = true →
     chainCore result "mstatus" = some (Json.str "failure") →
      (vendorResponse req.orderIdJ status result).statusCode = 400 ∧
      jsFieldAny (vendorResponse req.orderIdJ status result).body "message" =
        some (jsOrJ (chainCore result "merrMsg")
          (Json.str "Error from Veritrans MPI")) ∧
      jsFieldAny (vendorResponse req.orderIdJ status result).body "orderId" =
        some req.orderIdJ) ∧
    (respOk status = true →
     chainCore result "mstatus" ≠ some (Json.str "failure") →
      (vendorResponse req.orderIdJ status result).statusCode = 200) := by
  refine ⟨?_, ?_, ?_, ?_⟩
  · unfold authorizeHandler
    rw [authorizeCore_of_request env pr now rand req hreq status (.ok result),
        interpretVendor_ok req.orderIdJ status result hnn]
  · intro hok
    simp [vendorResponse, hok]
  · intro hok hm
    have hvb : vendorResponse req.orderIdJ status result =
        ⟨400, jObj ([("message", jsOrJ (chainCore result "merrMsg")
            (Json.str "Error from Veritrans MPI"))]
          ++ optEntry "mstatus" (chainCore result "mstatus")
          ++ optEntry "vResultCode" (chainCore result "vResultCode")
          ++ [("orderId", req.orderIdJ)])⟩ := by
      simp [vendorResponse, hok, hm]
    rw [hvb]
    exact ⟨rfl,
      by rw [show (⟨400, jObj _⟩ : LambdaResponse).body = jObj _ from rfl,
           jsFieldAny_jObj]
         exact (lookupF_errBody _ _ _ _).1,
      by rw [show (⟨400, jObj _⟩ : LambdaResponse).body = jObj _ from rfl,
           jsFieldAny_jObj]
         exact (lookupF_errBody _ _ _ _).2⟩
  · intro hok hm
    rcases hcm : chainCore result "mstatus" with _ | v
    · simp [vendorResponse, hok, hcm]
    · cases v
      case str s =>
        have hs : s ≠ "failure" := fun he => hm (by rw [hcm, he])
        simp [vendorResponse, hok, hcm, hs]
      all_goals simp [vendorResponse, hok, hcm]

def c4body : Json := jObj [("token", Json.str "tok_123"), ("amount", Json.num 1000)]

def c4req : OutboundRequest :=
  match buildAuthorize envFull (.ok c4body) 5 "ab" with
  | .ok (.inr r) => r
  | _ => default

def c4vendor : Json := jObj [("result", jObj [("merrMsg", Json.str "unavailable")])]

theorem authorize_vendor_interpretation_witness :
    buildAuthorize envFull (.ok c4body) 5 "ab" = .ok (.inr c4req) ∧
    authorizeHandler envFull (.ok c4body) 5 "ab" (.response 503 (.ok c4vendor)) =
      vendorResponse c4req.orderIdJ 503 c4vendor ∧
    (vendorResponse c4req.orderIdJ 503 c4vendor).statusCode = 503 := by
  have h := authorize_vendor_interpretation envFull (.ok c4body) 5 "ab" c4req 503
    c4vendor rfl (fun hh => Json.noConfusion hh)
  exact ⟨rfl, h.1, h.2.1 rfl⟩

/-- C4 counterexample: the claim quantifies over every vendor response, but
a 503 reply whose body is the valid JSON document `null` is not relayed as
503 - reading `result.result` throws, so the handler answers 500 from its
catch. -/
theorem authorize_vendor_relay_counterexample :
    buildAuthorize envFull (.ok c4body) 5 "ab" = .ok (.inr c4req) ∧
    respOk 503 = false ∧
    authorizeHandler envFull (.ok c4body) 5 "ab" (.response 503 (.ok Json.null)) =
      internalErrorResponse "Cannot read properties of null (reading result)" ∧
    (authorizeHandler envFull (.ok c4body) 5 "ab"
      (.response 503 (.ok Json.null))).statusCode = 500 ∧
    (authorizeHandler envFull (.ok c4body) 5 "ab"
      (.response 503 (.ok Json.null))).statusCode ≠ 503 := by
  refine ⟨rfl, rfl, rfl, rfl, ?_⟩
  intro h
  rw [show (authorizeHandler envFull (.ok c4body) 5 "ab"
    (.response 503 (.ok Json.null))).statusCode = 500 from rfl] at h
  exact absurd h (by decide)

/-! ### C5: defaults and overrides -/

theorem jsOrJ_truthy (o : Option Json) (d : Json) (h : jsTruthyO o = true) :
    jsOrJ o d = o.getD d := by
  cases o with
  | none => cases h
  | some v =>
    simp only [jsTruthyO] at h
    simp [jsOrJ, h]

theorem jsOrJ_falsy (o : Option Json) (d : Json) (h : jsTruthyO o = false) :
    jsOrJ o d = d := by
  cases o with
  | none => rfl
  | some v =>
    simp only [jsTruthyO] at h
    simp [jsOrJ, h]

/-- C5 (amended): the scenario payload is assembled exactly as specified
(`payNowIdParam.token`, stringified `amount`, default `serviceOptionType`),
and each of the four fixed defaults is applied exactly when the
client-supplied value is absent or falsy - a supplied but falsy value (for
example the empty string) is also replaced by the default. -/
theorem authorize_payload_assembly (env : Env) (body : Json) (now : Nat)
    (rand : String) (ccid key : String)
    (hc : envVal env.merchantCcid = some ccid)
    (hk : envVal env.merchantKey = some key) :
    (body = jObj [("token", Json.str "tok_123"), ("amount", Json.num 1000)] →
      ∀ req, buildAuthorize env (.ok body) now rand = .ok (.inr req) →
        jsFieldAny req.params "serviceOptionType" = some (Json.str "mpi-complete") ∧
        jsFieldAny req.params "amount" = some (Json.str "1000") ∧
        jsFieldAny req.params "payNowIdParam" =
          some (jObj [("token", Json.str "tok_123")]) ∧
        jsFieldAny (jObj [("token", Json.str "tok_123")]) "token" =
          some (Json.str "tok_123")) ∧
    (∀ oid,
      lookupF (buildParams ccid env body oid) "serviceOptionType" =
        some (jsOrJ (jsFieldAny body "serviceOptionType") (Json.str "mpi-complete")) ∧
      lookupF (buildParams ccid env body oid) "jpo" =
        some (jsOrJ (jsFieldAny body "jpo") (Json.str "10")) ∧
      lookupF (buildParams ccid env body oid) "withCapture" =
        some (jsOrJ (jsFieldAny body "withCapture") (Json.str "false")) ∧
      lookupF (buildParams ccid env body oid) "deviceChannel" =
        some (jsOrJ (jsFieldAny body "deviceChannel") (Json.str "02"))) ∧
    (∀ (o : Option Json) (d : Json),
      (jsTruthyO o = true → jsOrJ o d = o.getD d) ∧
      (jsTruthyO o = false → jsOrJ o d = d)) := by
  refine ⟨?_, ?_, fun o d => ⟨jsOrJ_truthy o d, jsOrJ_falsy o d⟩⟩
  · intro hbody req hreq
    subst hbody
    rw [buildAuthorize_valid env
      (jObj [("token", Json.str "tok_123"), ("amount", Json.num 1000)]) now rand
      ccid key hc hk (fun hh => Json.noConfusion hh) rfl rfl] at hreq
    injection hreq with h1
    injection h1 with h2
    rw [← h2]
    exact ⟨rfl, rfl, rfl, rfl⟩
  · intro oid
    refine ⟨rfl, rfl, rfl, ?_⟩
    show lookupF (buildParams ccid env body oid) "deviceChannel" = _
    unfold buildParams
    simp only [List.cons_append, List.nil_append, List.append_assoc]
    rw [lookupF_cons_ne _ _ _ _ (by decide), lookupF_cons_ne _ _ _ _ (by decide),
      lookupF_cons_ne _ _ _ _ (by decide), lookupF_cons_ne _ _ _ _ (by decide),
      lookupF_cons_ne _ _ _ _ (by decide), lookupF_cons_ne _ _ _ _ (by decide),
      lookupF_optEntry_ne _ _ _ _ (by decide),
      lookupF_cons_ne _ _ _ _ (by decide), lookupF_cons_eq]

def c5body : Json :=
  jObj [("token", Json.str "tok_123"), ("amount", Json.num 1000),
        ("serviceOptionType", Json.str "")]

def c5req : OutboundRequest :=
  match buildAuthorize envFull (.ok c5body) 5 "ab" with
  | .ok (.inr r) => r
  | _ => default

/-- C5 counterexample: a client-supplied `serviceOptionType` equal to `""`
is a supplied value, yet the default is still applied - the override rule
is truthiness, not presence. -/
theorem authorize_payload_assembly_counterexample :
    jsFieldAny c5body "serviceOptionType" = some (Json.str "") ∧
    buildAuthorize envFull (.ok c5body) 5 "ab" = .ok (.inr c5req) ∧
    jsFieldAny c5req.params "serviceOptionType" = some (Json.str "mpi-complete") ∧
    jsFieldAny c5req.params "serviceOptionType" ≠ some (Json.str "") := by
  refine ⟨rfl, rfl, rfl, ?_⟩
  intro h
  rw [show jsFieldAny c5req.params "serviceOptionType" =
    some (Json.str "mpi-complete") from rfl] at h
  injection h with h1
  injection h1 with h2
  exact absurd h2 (by decide)

def c5wbody : Json := jObj [("token", Json.str "tok_123"), ("amount", Json.num 1000)]

def c5wreq : OutboundRequest :=
  match buildAuthorize envFull (.ok c5wbody) 9 "zz" with
  | .ok (.inr r) => r
  | _ => default

theorem authorize_payload_assembly_witness :
    buildAuthorize envFull (.ok c5wbody) 9 "zz" = .ok (.inr c5wreq) ∧
    jsFieldAny c5wreq.params "serviceOptionType" = some (Json.str "mpi-complete") ∧
    jsFieldAny c5wreq.params "amount" = some (Json.str "1000") ∧
    jsFieldAny c5wreq.params "payNowIdParam" =
      some (jObj [("token", Json.str "tok_123")]) ∧
    lookupF (buildParams "CCID1" envFull c5wbody (Json.str "o")) "jpo" =
      some (Json.str "10") := by
  have h := authorize_payload_assembly envFull c5wbody 9 "zz" "CCID1" "KEY99" rfl rfl
  have hx := h.1 rfl c5wreq rfl
  refine ⟨rfl, hx.1, hx.2.1, hx.2.2.1, ?_⟩
  rw [(h.2.1 (Json.str "o")).2.1]
  rfl

/-! ### C6: sparse optional fields -/

theorem lookupF_ifentry_ne (P : Prop) [Decidable P] (k : String) (v : Json)
    (rest : List (String × Json)) (n : String) (h : k ≠ n) :
    lookupF ((if P then [(k, v)] else []) ++ rest) n = lookupF rest n := by
  by_cases hp : P <;> simp [hp, lookupF, h]

/-- C6 (amended): an optional client field appears as a key of the
assembled parameter object exactly when the client supplied a truthy value
for it, and then with that exact value; an absent field - or one supplied
with a falsy value such as `""` - produces no key at all (never a null or
empty placeholder). -/
theorem authorize_optional_fields (env : Env) (body : Json) (oid : Json)
    (ccid : String) (n : String) (hn : n ∈ optionalNames) :
    lookupF (buildParams ccid env body oid) n =
      truthyFilter (jsFieldAny body n) := by
  have k1 : ("serviceOptionType" : String) ≠ n := by
    intro he; rw [← he] at hn; revert hn; decide
  have k2 : ("orderId" : String) ≠ n := by
    intro he; rw [← he] at hn; revert hn; decide
  have k3 : ("amount" : String) ≠ n := by
    intro he; rw [← he] at hn; revert hn; decide
  have k4 : ("jpo" : String) ≠ n := by
    intro he; rw [← he] at hn; revert hn; decide
  have k5 : ("withCapture" : String) ≠ n := by
    intro he; rw [← he] at hn; revert hn; decide
  have k6 : ("payNowIdParam" : String) ≠ n := by
    intro he; rw [← he] at hn; revert hn; decide
  have k7 : ("redirectionUri" : String) ≠ n := by
    intro he; rw [← he] at hn; revert hn; decide
  have k8 : ("verifyResultLink" : String) ≠ n := by
    intro he; rw [← he] at hn; revert hn; decide
  have k9 : ("deviceChannel" : String) ≠ n := by
    intro he; rw [← he] at hn; revert hn; decide
  have k10 : ("txnVersion" : String) ≠ n := by
    intro he; rw [← he] at hn; revert hn; decide
  have k11 : ("dummyRequest" : String) ≠ n := by
    intro he; rw [← he] at hn; revert hn; decide
  have k12 : ("merchantCcid" : String) ≠ n := by
    intro he; rw [← he] at hn; revert hn; decide
  have hrest : lookupF ([("txnVersion", Json.str "2.0.0")]
      ++ ((if env.dummyRequest = some "1" then [("dummyRequest", Json.str "1")] else [])
        ++ [("merchantCcid", Json.str ccid)]) ) n = none := by
    simp only [List.cons_append, List.nil_append]
    rw [lookupF_cons_ne _ _ _ _ k10, lookupF_ifentry_ne _ _ _ _ _ k11,
      lookupF_cons_ne _ _ _ _ k12]
    rfl
  unfold buildParams
  simp only [List.cons_append, List.nil_append, List.append_assoc]
  rw [lookupF_cons_ne _ _ _ _ k1, lookupF_cons_ne _ _ _ _ k2,
    lookupF_cons_ne _ _ _ _ k3, lookupF_cons_ne _ _ _ _ k4,
    lookupF_cons_ne _ _ _ _ k5, lookupF_cons_ne _ _ _ _ k6,
    lookupF_optEntry_ne _ _ _ _ k7, lookupF_cons_ne _ _ _ _ k8,
    lookupF_cons_ne _ _ _ _ k9,
    lookupF_condAll_mem _ _ _ _ hn (by simpa using hrest) (by decide)]

def c6body : Json :=
  jObj [("token", Json.str "t"), ("amount", Json.num 1),
        ("customerIp", Json.str "")]

/-- C6 counterexample: `customerIp` supplied as `""` is a supplied field,
yet no `customerIp` key appears in the assembled parameter object - the
inclusion test is truthiness, not presence, so the stated biconditional
fails. -/
theorem authorize_optional_fields_counterexample :
    jsFieldAny c6body "customerIp" = some (Json.str "") ∧
    lookupF (buildParams "CCID1" envFull c6body (Json.str "o")) "customerIp" =
      none ∧
    lookupF (buildParams "CCID1" envFull c6body (Json.str "o")) "customerIp" ≠
      some (Json.str "") := by
  refine ⟨rfl, rfl, ?_⟩
  intro h
  rw [show lookupF (buildParams "CCID1" envFull c6body (Json.str "o")) "customerIp" =
    none from rfl] at h
  exact Option.noConfusion h

def c6wbody : Json :=
  jObj [("token", Json.str "t"), ("amount", Json.num 1),
        ("customerIp", Json.str "203.0.113.7")]

theorem authorize_optional_fields_witness :
    lookupF (buildParams "CCID1" envFull c6wbody (Json.str "o")) "customerIp" =
      some (Json.str "203.0.113.7") ∧
    lookupF (buildParams "CCID1" envFull c6wbody (Json.str "o")) "pushUrl" =
      none := by
  constructor
  · rw [authorize_optional_fields envFull c6wbody (Json.str "o") "CCID1"
      "customerIp" (by decide)]
    rfl
  · rw [authorize_optional_fields envFull c6wbody (Json.str "o") "CCID1"
      "pushUrl" (by decide)]
    rfl

/-! ### C1: the auth hash -/

/-- C1: for every merchant id, parameter object and merchant secret the
hash is the hex SHA-256 of merchant id, `JSON.stringify(params)` and
merchant key concatenated in that order with no separators; the authorize
handler's outbound request carries exactly this hash over its own `params`,
and its POST body serializes those `params` with the very same
`jsonStringify` (the serialized params appear verbatim between the fixed
framing). -/
theorem authorize_authHash (env : Env) (pr : Except String Json) (now : Nat)
    (rand : String) (req : OutboundRequest) (ccid key : String)
    (hc : envVal env.merchantCcid = some ccid)
    (hk : envVal env.merchantKey = some key)
    (hreq : buildAuthorize env pr now rand = .ok (.inr req)) :
    (∀ (c : String) (p : Json) (k : String),
      generateAuthHash c p k = sha256hex (c ++ jsonStringify p ++ k)) ∧
    req.authHash = generateAuthHash ccid req.params key ∧
    req.authHash = sha256hex (ccid ++ jsonStringify req.params ++ key) ∧
    outboundBody req = String.mk ('\x7b' ::
      ((strLitChars "params" ++ ':' :: (jsonChars req.params ++ ',' ::
        (strLitChars "authHash" ++ ':' :: jsonChars (Json.str req.authHash))))
       ++ ['\x7d'])) := by
  refine ⟨fun c p k => rfl, ?_⟩
  cases pr with
  | error e =>
    exfalso
    unfold buildAuthorize at hreq
    rw [hc, hk] at hreq
    exact Except.noConfusion hreq
  | ok body =>
    by_cases hnn : body = Json.null
    · exfalso
      subst hnn
      unfold buildAuthorize at hreq
      rw [hc, hk] at hreq
      exact Except.noConfusion hreq
    · cases ht : jsTruthyO (jsFieldAny body "token")
      · exfalso
        rw [buildAuthorize_token_falsy env body now rand ccid key hc hk hnn ht] at hreq
        injection hreq with h1
        exact Sum.noConfusion h1
      · cases ha : jsTruthyO (jsFieldAny body "amount")
        · exfalso
          rw [buildAuthorize_amount_falsy env body now rand ccid key hc hk hnn ht ha]
            at hreq
          injection hreq with h1
          exact Sum.noConfusion h1
        · rw [buildAuthorize_valid env body now rand ccid key hc hk hnn ht ha] at hreq
          injection hreq with h1
          injection h1 with h2
          rw [← h2]
          exact ⟨rfl, rfl, rfl⟩

def c1body : Json := jObj [("token", Json.str "tok_123"), ("amount", Json.num 1000)]

def c1req : OutboundRequest :=
  match buildAuthorize envFull (.ok c1body) 3 "xy" with
  | .ok (.inr r) => r
  | _ => default

theorem authorize_authHash_witness :
    buildAuthorize envFull (.ok c1body) 3 "xy" = .ok (.inr c1req) ∧
    c1req.authHash = sha256hex ("CCID1" ++ jsonStringify c1req.params ++ "KEY99") := by
  have h := authorize_authHash envFull (.ok c1body) 3 "xy" c1req "CCID1" "KEY99"
    rfl rfl rfl
  exact ⟨rfl, h.2.2.1⟩

/-! ### C7: hash sensitivity

The claim compares hashes of parameter objects differing in one value.  At
the digest level it is false by pigeonhole (the digest space is finite, the
parameter space is not); what the concatenation scheme does guarantee is
that the *hashed string* differs.  That needs the serializer to be
injective, proved below through prefix-cancellation lemmas. -/

/-- Decimal value of a digit list (most significant first). -/
def digitsVal (l : List Char) : Nat :=
  l.foldl (fun a c => a * 10 + digitVal c) 0

theorem digitVal_digitChar10 (n : Nat) (h : n < 10) :
    digitVal (digitChar10 n) = n := by
  interval_cases n <;> rfl

theorem isDigitCh_digitChar10 (n : Nat) (h : n < 10) :
    isDigitCh (digitChar10 n) = true := by
  interval_cases n <;> rfl

theorem digitsVal_snoc (l : List Char) (c : Char) :
    digitsVal (l ++ [c]) = digitsVal l * 10 + digitVal c := by
  simp [digitsVal, List.foldl_append]

theorem natCharsAux_spec :
    ∀ (fuel n : Nat), n < fuel →
      digitsVal (natCharsAux fuel n) = n ∧ natCharsAux fuel n ≠ [] ∧
      ∀ c ∈ natCharsAux fuel n, isDigitCh c = true := by
  intro fuel
  induction fuel with
  | zero => intro n h; omega
  | succ fuel ih =>
    intro n h
    by_cases h10 : n < 10
    · refine ⟨?_, ?_, ?_⟩
      · simp [natCharsAux, h10, digitsVal, digitVal_digitChar10 n h10]
      · simp [natCharsAux, h10]
      · intro c hc
        simp [natCharsAux, h10] at hc
        rw [hc]
        exact isDigitCh_digitChar10 n h10
    · have hdiv : n / 10 < fuel := by
        have h1 : n / 10 < n := Nat.div_lt_self (by omega) (by omega)
        omega
      obtain ⟨hval, hne, hdig⟩ := ih (n / 10) hdiv
      refine ⟨?_, ?_, ?_⟩
      · simp only [natCharsAux, h10, if_false, if_neg h10]
        rw [digitsVal_snoc, hval, digitVal_digitChar10 (n % 10) (Nat.mod_lt _ (by omega))]
        omega
      · simp [natCharsAux, h10]
      · intro c hc
        simp only [natCharsAux, h10, if_false, if_neg h10, List.mem_append,
          List.mem_singleton] at hc
        rcases hc with hc | hc
        · exact hdig c hc
        · rw [hc]
          exact isDigitCh_digitChar10 (n % 10) (Nat.mod_lt _ (by omega))

theorem digitsVal_natChars (n : Nat) : digitsVal (natChars n) = n :=
  (natCharsAux_spec (n + 1) n (by omega)).1

theorem natChars_ne_nil (n : Nat) : natChars n ≠ [] :=
  (natCharsAux_spec (n + 1) n (by omega)).2.1

theorem natChars_digits (n : Nat) : ∀ c ∈ natChars n, isDigitCh c = true :=
  (natCharsAux_spec (n + 1) n (by omega)).2.2

/-- Does the list not start with a decimal digit? -/
def noDigitHead : List Char → Bool
  | [] => true
  | c :: _ => !isDigitCh c

/-- Two all-digit runs followed by non-digit (or empty) tails split
uniquely. -/
theorem digits_boundary :
    ∀ (d1 d2 r1 r2 : List Char),
      (∀ c ∈ d1, isDigitCh c = true) → (∀ c ∈ d2, isDigitCh c = true) →
      noDigitHead r1 = true → noDigitHead r2 = true →
      d1 ++ r1 = d2 ++ r2 → d1 = d2 ∧ r1 = r2 := by
  intro d1
  induction d1 with
  | nil =>
    intro d2 r1 r2 hd1 hd2 hr1 hr2 h
    cases d2 with
    | nil => exact ⟨rfl, h⟩
    | cons c t =>
      exfalso
      simp only [List.nil_append, List.cons_append] at h
      rw [h] at hr1
      have hc : isDigitCh c = true := hd2 c (by simp)
      simp [noDigitHead, hc] at hr1
  | cons c1 t1 ih =>
    intro d2 r1 r2 hd1 hd2 hr1 hr2 h
    cases d2 with
    | nil =>
      exfalso
      simp only [List.nil_append, List.cons_append] at h
      rw [← h] at hr2
      have hc : isDigitCh c1 = true := hd1 c1 (by simp)
      simp [noDigitHead, hc] at hr2
    | cons c2 t2 =>
      simp only [List.cons_append] at h
      injection h with hc ht
      obtain ⟨h1, h2⟩ := ih t2 r1 r2 (fun c hc => hd1 c (by simp [hc]))
        (fun c hc => hd2 c (by simp [hc])) hr1 hr2 ht
      exact ⟨by rw [hc, h1], h2⟩

theorem natChars_injective (m n : Nat) (h : natChars m = natChars n) : m = n := by
  have := digitsVal_natChars m
  rw [h, digitsVal_natChars] at this
  omega

/-- Number printing splits uniquely before a non-digit tail. -/
theorem intChars_cancel (n1 n2 : Int) (a b : List Char)
    (ha : noDigitHead a = true) (hb : noDigitHead b = true)
    (h : intChars n1 ++ a = intChars n2 ++ b) : n1 = n2 ∧ a = b := by
  have hhead : ∀ m : Nat, ∃ c t, natChars m = c :: t ∧ isDigitCh c = true := by
    intro m
    cases hm : natChars m with
    | nil => exact absurd hm (natChars_ne_nil m)
    | cons c t => exact ⟨c, t, rfl, natChars_digits m c (by rw [hm]; simp)⟩
  unfold intChars at h
  by_cases h1 : n1 < 0 <;> by_cases h2 : n2 < 0 <;>
    simp only [h1, h2, if_true, if_false, if_pos, if_neg, not_false_iff] at h
  · -- both negative
    simp only [List.cons_append] at h
    injection h with _ ht
    obtain ⟨hm, hab⟩ := digits_boundary (natChars n1.natAbs) (natChars n2.natAbs)
      a b (natChars_digits _) (natChars_digits _) ha hb ht
    have := natChars_injective _ _ hm
    exact ⟨by omega, hab⟩
  · -- n1 < 0 ≤ n2: head of RHS is a digit, LHS starts with the minus sign
    exfalso
    obtain ⟨c, t, hc, hdig⟩ := hhead n2.natAbs
    rw [hc] at h
    simp only [List.cons_append] at h
    injection h with hcc _
    rw [← hcc] at hdig
    exact absurd hdig (by decide)
  · exfalso
    obtain ⟨c, t, hc, hdig⟩ := hhead n1.natAbs
    rw [hc] at h
    simp only [List.cons_append] at h
    injection h with hcc _
    rw [hcc] at hdig
    exact absurd hdig (by decide)
  · obtain ⟨hm, hab⟩ := digits_boundary (natChars n1.natAbs) (natChars n2.natAbs)
      a b (natChars_digits _) (natChars_digits _) ha hb h
    have := natChars_injective _ _ hm
    exact ⟨by omega, hab⟩

/-! ### Escape-level cancellation -/

theorem hexDigit_inj16 (m n : Nat) (hm : m < 16) (hn : n < 16)
    (h : hexDigit m = hexDigit n) : m = n := by
  interval_cases m <;> interval_cases n <;> first | rfl | (exact absurd h (by decide))

theorem char_toNat_inj (c1 c2 : Char) (h : c1.toNat = c2.toNat) : c1 = c2 := by
  rw [← Char.ofNat_toNat c1, h, Char.ofNat_toNat]

set_option maxHeartbeats 2000000 in
/-- One escaped character splits off uniquely: the escape code is a prefix
code. -/
theorem escChar_cancel (c1 c2 : Char) (a b : List Char)
    (h : escChar c1 ++ a = escChar c2 ++ b) : c1 = c2 ∧ a = b := by
  unfold escChar at h
  split_ifs at h <;>
    simp only [List.cons_append, List.nil_append, List.cons.injEq] at h <;>
    first
    | exact h
    | exact absurd h.2.1 (by decide)
    | exact absurd h.1 (by assumption)
    | exact absurd h.1.symm (by assumption)
    | exact ⟨by simp_all, h.2.2⟩
    | (obtain ⟨-, -, -, -, h5, h6, h7⟩ := h
       exact ⟨char_toNat_inj _ _ (by
         have e1 := hexDigit_inj16 _ _ (by omega) (by omega) h5
         have e2 := hexDigit_inj16 _ _ (by omega) (by omega) h6
         omega), h7⟩)

theorem escChar_head_ne_quote (c : Char) :
    ∃ d e, escChar c = d :: e ∧ d ≠ '"' := by
  unfold escChar
  split_ifs with h1 h2 h3 h4 h5 h6 h7 h8 <;>
    first
    | exact ⟨'\\', _, rfl, by decide⟩
    | exact ⟨c, [], rfl, h1⟩

/-- A `"`-terminated escaped run splits uniquely. -/
theorem escL_cancel : ∀ (s1 s2 a b : List Char),
    escL s1 ++ '"' :: a = escL s2 ++ '"' :: b → s1 = s2 ∧ a = b := by
  intro s1
  induction s1 with
  | nil =>
    intro s2 a b h
    cases s2 with
    | nil => exact ⟨rfl, by simpa [escL] using h⟩
    | cons c t =>
      exfalso
      obtain ⟨d, e, hde, hdq⟩ := escChar_head_ne_quote c
      simp only [escL, List.nil_append] at h
      rw [hde] at h
      simp only [List.append_assoc, List.cons_append] at h
      injection h with h1 _
      exact hdq h1.symm
  | cons c1 t1 ih =>
    intro s2 a b h
    cases s2 with
    | nil =>
      exfalso
      obtain ⟨d, e, hde, hdq⟩ := escChar_head_ne_quote c1
      simp only [escL, List.nil_append] at h
      rw [hde] at h
      simp only [List.append_assoc, List.cons_append] at h
      injection h with h1 _
      exact hdq h1
    | cons c2 t2 =>
      simp only [escL, List.append_assoc] at h
      obtain ⟨hc, hrest⟩ := escChar_cancel c1 c2 _ _ h
      obtain ⟨ht, hab⟩ := ih t2 a b hrest
      exact ⟨by rw [hc, ht], hab⟩

/-! ### First-character discrimination -/

def kindOf : Json → Nat
  | .null => 0
  | .bool _ => 1
  | .num _ => 2
  | .str _ => 3
  | .arr _ => 4
  | .obj _ => 5

def headKind (c : Char) : Nat :=
  if c = 'n' then 0
  else if c = 't' then 1
  else if c = 'f' then 1
  else if isDigitCh c then 2
  else if c = '-' then 2
  else if c = '"' then 3
  else if c = '[' then 4
  else if c = '\x7b' then 5
  else 99

theorem headKind_digit (c : Char) (h : isDigitCh c = true) : headKind c = 2 := by
  have hn : c ≠ 'n' := by intro he; rw [he] at h; exact absurd h (by decide)
  have ht : c ≠ 't' := by intro he; rw [he] at h; exact absurd h (by decide)
  have hf : c ≠ 'f' := by intro he; rw [he] at h; exact absurd h (by decide)
  simp [headKind, hn, ht, hf, h]

theorem kindOf_le (j : Json) : kindOf j ≤ 5 := by
  cases j <;> simp [kindOf]

theorem jsonChars_head (j : Json) :
    ∃ c t, jsonChars j = c :: t ∧ headKind c = kindOf j := by
  cases j with
  | null => exact ⟨'n', _, rfl, by decide⟩
  | bool b =>
    cases b
    · exact ⟨'f', _, rfl, by decide⟩
    · exact ⟨'t', _, rfl, by decide⟩
  | num n =>
    by_cases hn : n < 0
    · exact ⟨'-', natChars n.natAbs, by simp [jsonChars, intChars, hn], rfl⟩
    · cases hm : natChars n.natAbs with
      | nil => exact absurd hm (natChars_ne_nil _)
      | cons c t =>
        refine ⟨c, t, by simp [jsonChars, intChars, hn, hm], ?_⟩
        rw [headKind_digit c (natChars_digits _ c (by rw [hm]; simp))]
        rfl
  | str s => exact ⟨'"', _, rfl, rfl⟩
  | arr xs => exact ⟨'[', _, rfl, rfl⟩
  | obj fs => exact ⟨'\x7b', _, rfl, rfl⟩

/-- A delimiter character never starts a serialized JSON value. -/
theorem jsonChars_not_head (j : Json) (c : Char) (hc : headKind c = 99)
    (t r : List Char) (h : c :: t = jsonChars j ++ r) : False := by
  obtain ⟨d, e, hde, hk⟩ := jsonChars_head j
  rw [hde] at h
  simp only [List.cons_append] at h
  injection h with h1 _
  rw [← h1, hc] at hk
  have := kindOf_le j
  omega

/-! ### Prefix cancellation for the serializer -/

theorem jsonCharsFields_cons_head (k : String) (v : Json) (tl : JsonFields) :
    ∃ rest, jsonCharsFields (.fcons k v tl) = '"' :: rest := by
  cases tl with
  | fnil => exact ⟨_, rfl⟩
  | fcons k2 v2 tl2 => exact ⟨_, rfl⟩

mutual

theorem jsonChars_pre : ∀ (j1 j2 : Json) (a b : List Char),
    noDigitHead a = true → noDigitHead b = true →
    jsonChars j1 ++ a = jsonChars j2 ++ b → j1 = j2 ∧ a = b
  | j1, j2, a, b, ha, hb, h => by
    by_cases hkind : kindOf j1 = kindOf j2
    · cases j1 <;> cases j2 <;> try simp [kindOf] at hkind
      · refine ⟨rfl, ?_⟩
        simpa [jsonChars] using h
      · rename_i b1 b2
        cases b1 <;> cases b2
        · exact ⟨rfl, by simpa [jsonChars] using h⟩
        · simp [jsonChars] at h
        · simp [jsonChars] at h
        · exact ⟨rfl, by simpa [jsonChars] using h⟩
      · rename_i n1 n2
        simp only [jsonChars] at h
        obtain ⟨hn, hab⟩ := intChars_cancel n1 n2 a b ha hb h
        exact ⟨by rw [hn], hab⟩
      · rename_i s1 s2
        simp only [jsonChars, strLitChars, List.cons_append, List.append_assoc,
          List.singleton_append] at h
        injection h with _ h2
        obtain ⟨hs, hab⟩ := escL_cancel s1.data s2.data a b h2
        exact ⟨congrArg Json.str (String.ext hs), hab⟩
      · rename_i x1 x2
        simp only [jsonChars, List.cons_append, List.append_assoc,
          List.singleton_append] at h
        injection h with _ h2
        obtain ⟨hx, hab⟩ := jsonCharsArr_pre x1 x2 a b h2
        exact ⟨congrArg Json.arr hx, hab⟩
      · rename_i f1 f2
        simp only [jsonChars, List.cons_append, List.append_assoc,
          List.singleton_append] at h
        injection h with _ h2
        obtain ⟨hf, hab⟩ := jsonCharsFields_pre f1 f2 a b h2
        exact ⟨congrArg Json.obj hf, hab⟩
    · exfalso
      obtain ⟨c1, t1, e1, k1⟩ := jsonChars_head j1
      obtain ⟨c2, t2, e2, k2⟩ := jsonChars_head j2
      rw [e1, e2] at h
      simp only [List.cons_append] at h
      injection h with h1 _
      rw [h1] at k1
      exact hkind (k1.symm.trans k2)

theorem jsonCharsArr_pre : ∀ (x1 x2 : JsonArr) (a b : List Char),
    jsonCharsArr x1 ++ ']' :: a = jsonCharsArr x2 ++ ']' :: b →
    x1 = x2 ∧ a = b
  | .anil, .anil, a, b, h => ⟨rfl, by simpa [jsonCharsArr] using h⟩
  | .anil, .acons v2 tl2, a, b, h => by
    exfalso
    cases tl2 with
    | anil =>
      rw [show jsonCharsArr (.acons v2 .anil) = jsonChars v2 from rfl,
        show jsonCharsArr .anil = ([] : List Char) from rfl, List.nil_append] at h
      exact jsonChars_not_head v2 ']' (by decide) a _ h
    | acons w u =>
      rw [show jsonCharsArr (.acons v2 (.acons w u)) =
          jsonChars v2 ++ ',' :: jsonCharsArr (.acons w u) from rfl,
        show jsonCharsArr .anil = ([] : List Char) from rfl, List.nil_append,
        List.append_assoc] at h
      exact jsonChars_not_head v2 ']' (by decide) a _ h
  | .acons v1 tl1, .anil, a, b, h => by
    exfalso
    cases tl1 with
    | anil =>
      rw [show jsonCharsArr (.acons v1 .anil) = jsonChars v1 from rfl,
        show jsonCharsArr .anil = ([] : List Char) from rfl, List.nil_append] at h
      exact jsonChars_not_head v1 ']' (by decide) b _ h.symm
    | acons w u =>
      rw [show jsonCharsArr (.acons v1 (.acons w u)) =
          jsonChars v1 ++ ',' :: jsonCharsArr (.acons w u) from rfl,
        show jsonCharsArr .anil = ([] : List Char) from rfl, List.nil_append,
        List.append_assoc] at h
      exact jsonChars_not_head v1 ']' (by decide) b _ h.symm
  | .acons v1 tl1, .acons v2 tl2, a, b, h => by
    cases tl1 with
    | anil =>
      cases tl2 with
      | anil =>
        rw [show jsonCharsArr (.acons v1 .anil) = jsonChars v1 from rfl,
          show jsonCharsArr (.acons v2 .anil) = jsonChars v2 from rfl] at h
        obtain ⟨hv, hab⟩ := jsonChars_pre v1 v2 (']' :: a) (']' :: b) rfl rfl h
        injection hab with _ hab2
        exact ⟨by rw [hv], hab2⟩
      | acons w2 u2 =>
        exfalso
        rw [show jsonCharsArr (.acons v1 .anil) = jsonChars v1 from rfl,
          show jsonCharsArr (.acons v2 (.acons w2 u2)) =
            jsonChars v2 ++ ',' :: jsonCharsArr (.acons w2 u2) from rfl,
          List.append_assoc, List.cons_append] at h
        obtain ⟨hv, hab⟩ := jsonChars_pre v1 v2 (']' :: a)
          (',' :: (jsonCharsArr (.acons w2 u2) ++ ']' :: b)) rfl rfl h
        injection hab with h1 _
        exact absurd h1 (by decide)
    | acons w1 u1 =>
      cases tl2 with
      | anil =>
        exfalso
        rw [show jsonCharsArr (.acons v1 (.acons w1 u1)) =
            jsonChars v1 ++ ',' :: jsonCharsArr (.acons w1 u1) from rfl,
          show jsonCharsArr (.acons v2 .anil) = jsonChars v2 from rfl,
          List.append_assoc, List.cons_append] at h
        obtain ⟨hv, hab⟩ := jsonChars_pre v1 v2
          (',' :: (jsonCharsArr (.acons w1 u1) ++ ']' :: a)) (']' :: b) rfl rfl h
        injection hab with h1 _
        exact absurd h1 (by decide)
      | acons w2 u2 =>
        rw [show jsonCharsArr (.acons v1 (.acons w1 u1)) =
            jsonChars v1 ++ ',' :: jsonCharsArr (.acons w1 u1) from rfl,
          show jsonCharsArr (.acons v2 (.acons w2 u2)) =
            jsonChars v2 ++ ',' :: jsonCharsArr (.acons w2 u2) from rfl,
          List.append_assoc, List.cons_append, List.append_assoc,
          List.cons_append] at h
        obtain ⟨hv, hab⟩ := jsonChars_pre v1 v2
          (',' :: (jsonCharsArr (.acons w1 u1) ++ ']' :: a))
          (',' :: (jsonCharsArr (.acons w2 u2) ++ ']' :: b)) rfl rfl h
        injection hab with _ hab2
        obtain ⟨ht, hab3⟩ := jsonCharsArr_pre (.acons w1 u1) (.acons w2 u2) a b hab2
        exact ⟨by rw [hv, ht], hab3⟩

theorem jsonCharsFields_pre : ∀ (f1 f2 : JsonFields) (a b : List Char),
    jsonCharsFields f1 ++ '\x7d' :: a = jsonCharsFields f2 ++ '\x7d' :: b →
    f1 = f2 ∧ a = b
  | .fnil, .fnil, a, b, h => ⟨rfl, by simpa [jsonCharsFields] using h⟩
  | .fnil, .fcons k2 v2 tl2, a, b, h => by
    exfalso
    obtain ⟨rest, hr⟩ := jsonCharsFields_cons_head k2 v2 tl2
    rw [hr, show jsonCharsFields .fnil = ([] : List Char) from rfl,
      List.nil_append, List.cons_append] at h
    injection h with h1 _
    exact absurd h1 (by decide)
  | .fcons k1 v1 tl1, .fnil, a, b, h => by
    exfalso
    obtain ⟨rest, hr⟩ := jsonCharsFields_cons_head k1 v1 tl1
    rw [hr, show jsonCharsFields .fnil = ([] : List Char) from rfl,
      List.nil_append, List.cons_append] at h
    injection h with h1 _
    exact absurd h1 (by decide)
  | .fcons k1 v1 tl1, .fcons k2 v2 tl2, a, b, h => by
    cases tl1 with
    | fnil =>
      cases tl2 with
      | fnil =>
        rw [show jsonCharsFields (.fcons k1 v1 .fnil) =
            strLitChars k1 ++ ':' :: jsonChars v1 from rfl,
          show jsonCharsFields (.fcons k2 v2 .fnil) =
            strLitChars k2 ++ ':' :: jsonChars v2 from rfl] at h
        simp only [strLitChars, List.cons_append, List.append_assoc,
          List.singleton_append] at h
        injection h with _ h2
        obtain ⟨hk, h3⟩ := escL_cancel k1.data k2.data _ _ h2
        injection h3 with _ h4
        obtain ⟨hv, h5⟩ := jsonChars_pre v1 v2 ('\x7d' :: a) ('\x7d' :: b) rfl rfl h4
        injection h5 with _ h6
        exact ⟨by rw [String.ext hk, hv], h6⟩
      | fcons k3 v3 tl3 =>
        exfalso
        rw [show jsonCharsFields (.fcons k1 v1 .fnil) =
            strLitChars k1 ++ ':' :: jsonChars v1 from rfl,
          show jsonCharsFields (.fcons k2 v2 (.fcons k3 v3 tl3)) =
            strLitChars k2 ++ ':' :: (jsonChars v2 ++ ',' ::
              jsonCharsFields (.fcons k3 v3 tl3)) from rfl] at h
        simp only [strLitChars, List.cons_append, List.append_assoc,
          List.singleton_append] at h
        injection h with _ h2
        obtain ⟨hk, h3⟩ := escL_cancel k1.data k2.data _ _ h2
        injection h3 with _ h4
        obtain ⟨hv, h5⟩ := jsonChars_pre v1 v2 ('\x7d' :: a)
          (',' :: (jsonCharsFields (.fcons k3 v3 tl3) ++ '\x7d' :: b)) rfl rfl h4
        injection h5 with h6 _
        exact absurd h6 (by decide)
    | fcons k3 v3 tl3 =>
      cases tl2 with
      | fnil =>
        exfalso
        rw [show jsonCharsFields (.fcons k1 v1 (.fcons k3 v3 tl3)) =
            strLitChars k1 ++ ':' :: (jsonChars v1 ++ ',' ::
              jsonCharsFields (.fcons k3 v3 tl3)) from rfl,
          show jsonCharsFields (.fcons k2 v2 .fnil) =
            strLitChars k2 ++ ':' :: jsonChars v2 from rfl] at h
        simp only [strLitChars, List.cons_append, List.append_assoc,
          List.singleton_append] at h
        injection h with _ h2
        obtain ⟨hk, h3⟩ := escL_cancel k1.data k2.data _ _ h2
        injection h3 with _ h4
        obtain ⟨hv, h5⟩ := jsonChars_pre v1 v2
          (',' :: (jsonCharsFields (.fcons k3 v3 tl3) ++ '\x7d' :: a))
          ('\x7d' :: b) rfl rfl h4
        injection h5 with h6 _
        exact absurd h6 (by decide)
      | fcons k4 v4 tl4 =>
        rw [show jsonCharsFields (.fcons k1 v1 (.fcons k3 v3 tl3)) =
            strLitChars k1 ++ ':' :: (jsonChars v1 ++ ',' ::
              jsonCharsFields (.fcons k3 v3 tl3)) from rfl,
          show jsonCharsFields (.fcons k2 v2 (.fcons k4 v4 tl4)) =
            strLitChars k2 ++ ':' :: (jsonChars v2 ++ ',' ::
              jsonCharsFields (.fcons k4 v4 tl4)) from rfl] at h
        simp only [strLitChars, List.cons_append, List.append_assoc,
          List.singleton_append] at h
        injection h with _ h2
        obtain ⟨hk, h3⟩ := escL_cancel k1.data k2.data _ _ h2
        injection h3 with _ h4
        obtain ⟨hv, h5⟩ := jsonChars_pre v1 v2
          (',' :: (jsonCharsFields (.fcons k3 v3 tl3) ++ '\x7d' :: a))
          (',' :: (jsonCharsFields (.fcons k4 v4 tl4) ++ '\x7d' :: b)) rfl rfl h4
        injection h5 with _ h6
        obtain ⟨htl, h7⟩ := jsonCharsFields_pre (.fcons k3 v3 tl3)
          (.fcons k4 v4 tl4) a b h6
        exact ⟨by rw [String.ext hk, hv, htl], h7⟩

end

/-! ### Injectivity of the serializer, and C7 -/

theorem jsonChars_injective (j1 j2 : Json) (h : jsonChars j1 = jsonChars j2) :
    j1 = j2 :=
  (jsonChars_pre j1 j2 [] [] rfl rfl (by simpa using h)).1

theorem jsonStringify_injective (j1 j2 : Json)
    (h : jsonStringify j1 = jsonStringify j2) : j1 = j2 :=
  jsonChars_injective j1 j2 (congrArg String.data h)

theorem fieldsOfList_injective : ∀ (l1 l2 : List (String × Json)),
    fieldsOfList l1 = fieldsOfList l2 → l1 = l2
  | [], [], _ => rfl
  | [], (k, v) :: t, h => JsonFields.noConfusion h
  | (k, v) :: t, [], h => JsonFields.noConfusion h
  | (k1, v1) :: t1, (k2, v2) :: t2, h => by
    injection h with h1 h2 h3
    rw [h1, h2, fieldsOfList_injective t1 t2 h3]

theorem string_data_append (s t : String) : (s ++ t).data = s.data ++ t.data := by
  cases s
  cases t
  rfl

/-- C7 counterexample: the claim as stated - distinct single-parameter
values always give distinct `authHash` values - is false: the digest space
is finite while the parameter space is not, so by pigeonhole two parameter
objects differing in one value share their hash. -/
theorem generateAuthHash_collision_counterexample :
    ¬ (∀ (ccid key k : String) (pre post : List (String × Json)) (v1 v2 : Json),
        v1 ≠ v2 →
        generateAuthHash ccid (jObj (pre ++ (k, v1) :: post)) key ≠
          generateAuthHash ccid (jObj (pre ++ (k, v2) :: post)) key) := by
  intro hclaim
  obtain ⟨x, y, hxy, hg⟩ :=
    Finite.exists_ne_map_eq_of_infinite
      (fun n : ℕ =>
        (⟨sha256Nat (utf8Bytes ("C" ++
            jsonStringify (jObj [("orderId",
              Json.str (String.mk (List.replicate n 'a')))]) ++ "K")),
          sha256Nat_lt _⟩ : Fin (2 ^ 256)))
  have hv : Json.str (String.mk (List.replicate x 'a')) ≠
      Json.str (String.mk (List.replicate y 'a')) := by
    intro he
    apply hxy
    injection he with h1
    have h2 : List.replicate x 'a' = List.replicate y 'a' :=
      congrArg String.data h1
    have h3 := congrArg List.length h2
    simpa using h3
  have heq : generateAuthHash "C"
      (jObj [("orderId", Json.str (String.mk (List.replicate x 'a')))]) "K" =
      generateAuthHash "C"
      (jObj [("orderId", Json.str (String.mk (List.replicate y 'a')))]) "K" := by
    have hnat := congrArg Fin.val hg
    simp only at hnat
    show sha256hex _ = sha256hex _
    unfold sha256hex
    rw [hnat]
  exact hclaim "C" "K" "orderId" [] [] _ _ hv heq

/-- C7 (amended): changing the value of any single parameter (same merchant
id and secret) changes the *hashed string*: the serialization is injective,
so the concatenation scheme introduces no collision beyond those inherent
to the digest itself; the hash is exactly the digest of that string. -/
theorem generateAuthHash_preimage_sensitivity (ccid key k : String)
    (pre post : List (String × Json)) (v1 v2 : Json) (hne : v1 ≠ v2) :
    jsonStringify (jObj (pre ++ (k, v1) :: post)) ≠
      jsonStringify (jObj (pre ++ (k, v2) :: post)) ∧
    (ccid ++ jsonStringify (jObj (pre ++ (k, v1) :: post)) ++ key) ≠
      (ccid ++ jsonStringify (jObj (pre ++ (k, v2) :: post)) ++ key) ∧
    generateAuthHash ccid (jObj (pre ++ (k, v1) :: post)) key =
      sha256hex (ccid ++ jsonStringify (jObj (pre ++ (k, v1) :: post)) ++ key) := by
  have hstr : jsonStringify (jObj (pre ++ (k, v1) :: post)) ≠
      jsonStringify (jObj (pre ++ (k, v2) :: post)) := by
    intro h
    have hobj := jsonStringify_injective _ _ h
    have hfields : fieldsOfList (pre ++ (k, v1) :: post) =
        fieldsOfList (pre ++ (k, v2) :: post) := by
      injection hobj
    have hlist := fieldsOfList_injective _ _ hfields
    have hcons := List.append_cancel_left hlist
    injection hcons with h1 _
    injection h1 with _ hv
    exact hne hv
  refine ⟨hstr, ?_, rfl⟩
  intro h
  apply hstr
  have hd := congrArg String.data h
  rw [string_data_append, string_data_append, string_data_append,
    string_data_append] at hd
  exact String.ext (List.append_cancel_left (List.append_cancel_right hd))

theorem generateAuthHash_preimage_sensitivity_witness :
    ((Json.str "x" : Json) ≠ Json.str "y") ∧
    ("A" ++ jsonStringify (jObj [("orderId", Json.str "x")]) ++ "B") ≠
      ("A" ++ jsonStringify (jObj [("orderId", Json.str "y")]) ++ "B") := by
  have hne : (Json.str "x" : Json) ≠ Json.str "y" := by
    intro he
    injection he with h1
    exact absurd h1 (by decide)
  exact ⟨hne, (generateAuthHash_preimage_sensitivity "A" "B" "orderId" [] []
    (Json.str "x") (Json.str "y") hne).2.1⟩
